import Mathlib

/-!
Verification of the project-page generator (`tools/project_generator.py`).

Strings are modelled as `List Char`.  Python string operations used by the
generator (`str.replace`, `str.lower`, `str.title`, `os.path.splitext`,
`os.path.basename`, `os.path.join`, `sorted`, glob matching, dict insertion)
are given executable shallow embeddings below, and the generator's own
functions are transcribed from the source on top of them.
-/

set_option maxRecDepth 100000

deriving instance DecidableEq for Except

namespace PG

/-- The character `\x7b` (opening curly brace). -/
def lbrace : Char := Char.ofNat 123

/-- The character `\x7d` (closing curly brace). -/
def rbrace : Char := Char.ofNat 125

/-- Boolean test that `p` is a prefix of `s`. -/
def isPrefixB : List Char → List Char → Bool
  | [], _ => true
  | _ :: _, [] => false
  | p :: ps, c :: cs => p == c && isPrefixB ps cs

/-- Boolean test that `p` occurs as a contiguous substring of `s`
(the semantics of Python's `in` operator on strings). -/
def isInfixB (p : List Char) : List Char → Bool
  | [] => isPrefixB p []
  | c :: cs => isPrefixB p (c :: cs) || isInfixB p cs

/-- Boolean test that `p` is a suffix of `s`. -/
def isSuffixB (p s : List Char) : Bool :=
  isPrefixB p.reverse s.reverse

/-- Fuelled scanner behind `pyReplace`; the fuel only makes the recursion
structural and is irrelevant as long as it covers the text length
(`pyReplaceF_fuel` below). -/
def pyReplaceF (pat rep : List Char) : Nat → List Char → List Char
  | _, [] => []
  | 0, _ :: _ => []
  | f + 1, c :: cs =>
    if pat ≠ [] ∧ isPrefixB pat (c :: cs) = true then
      rep ++ pyReplaceF pat rep f (List.drop (pat.length - 1) cs)
    else
      c :: pyReplaceF pat rep f cs

/-- Python's `s.replace(pat, rep)` for a nonempty pattern: scan left to
right; whenever `pat` is a prefix of the remaining text, emit `rep` and
skip over the matched occurrence, otherwise copy one character.  (The
generator never calls `replace` with an empty pattern; the `pat ≠ []`
guard makes an empty pattern act as the identity.) -/
def pyReplace (s pat rep : List Char) : List Char :=
  pyReplaceF pat rep s.length s

/-- ASCII lowercasing of one character (what Python's `str.lower` does on
the ASCII inputs the generator handles). -/
def lowerC (c : Char) : Char :=
  if 'A' ≤ c ∧ c ≤ 'Z' then Char.ofNat (c.toNat + 32) else c

/-- ASCII uppercasing of one character. -/
def upperC (c : Char) : Char :=
  if 'a' ≤ c ∧ c ≤ 'z' then Char.ofNat (c.toNat - 32) else c

/-- ASCII letter test (the cased characters relevant to `str.title` here). -/
def isAlphaB (c : Char) : Bool :=
  ('a' ≤ c && c ≤ 'z') || ('A' ≤ c && c ≤ 'Z')

/-- Python's `str.lower` on ASCII text. -/
def pyLower (s : List Char) : List Char := s.map lowerC

/-- Helper for `pyTitle`: `prev` records whether the previous character was
a letter. -/
def pyTitleGo (prev : Bool) : List Char → List Char
  | [] => []
  | c :: cs =>
    (if isAlphaB c then (if prev then lowerC c else upperC c) else c)
      :: pyTitleGo (isAlphaB c) cs

/-- Python's `str.title` on ASCII text: a letter is uppercased when the
preceding character is not a letter, and lowercased otherwise. -/
def pyTitle (s : List Char) : List Char := pyTitleGo false s

/-- Last element of a character list, if any. -/
def lastC : List Char → Option Char
  | [] => none
  | [c] => some c
  | _ :: c :: cs => lastC (c :: cs)

/-- `os.path.basename` for the slash-separated paths the generator builds:
the part after the last `/`. -/
def basenameOf (p : List Char) : List Char :=
  ((p.reverse.takeWhile (fun c => c ≠ '/')).reverse)

/-- The stem part of `os.path.splitext(name)`: cut at the last dot, except
that a name whose part before the last dot consists only of dots (e.g.
`".png"`) is returned whole. -/
def splitextStem (n : List Char) : List Char :=
  if n.contains '.' then
    let a := ((n.reverse.dropWhile (fun c => c ≠ '.')).drop 1).reverse
    if a.all (fun c => c = '.') then n else a
  else n

/-- `os.path.join a b` for the relative paths used here. -/
def pyJoin (a b : List Char) : List Char :=
  if a = [] then b
  else if lastC a = some '/' then a ++ b
  else a ++ '/' :: b

/-- Code-point comparison of strings, as Python's `<=` on `str`. -/
def lexLe : List Char → List Char → Bool
  | [], _ => true
  | _ :: _, [] => false
  | a :: as, b :: bs =>
    if a.toNat < b.toNat then true
    else if b.toNat < a.toNat then false
    else lexLe as bs

/-- Insert into a list sorted by `lexLe` (helper for `sortStr`). -/
def insertStr (x : List Char) : List (List Char) → List (List Char)
  | [] => [x]
  | y :: ys => if lexLe x y then x :: y :: ys else y :: insertStr x ys

/-- Stable sort by code-point order, as Python's `sorted` on strings. -/
def sortStr : List (List Char) → List (List Char)
  | [] => []
  | x :: xs => insertStr x (sortStr xs)

/-- Association-list lookup (first match), as reading a Python dict key. -/
def lookupB {α : Type} (k : List Char) : List (List Char × α) → Option α
  | [] => none
  | (k', v) :: t => if k = k' then some v else lookupB k t

/-- Python dict insertion `d[k] = v`: if the key is present its value is
updated in place (position preserved), otherwise the pair is appended. -/
def dictInsert {α : Type} (k : List Char) (v : α) :
    List (List Char × α) → List (List Char × α)
  | [] => [(k, v)]
  | (k', v') :: t =>
    if k' = k then (k', v) :: t else (k', v') :: dictInsert k v t

/-- An `insights` entry of the project metadata (`value`, `label`). -/
structure Insight where
  value : List Char
  label : List Char
deriving Repr, DecidableEq

/-- A `key_insights` entry (`icon`, `title`, `description`). -/
structure KeyInsight where
  icon : List Char
  title : List Char
  description : List Char
deriving Repr, DecidableEq

/-- A `technical_implementation` entry (`title`, `description`). -/
structure TechItem where
  title : List Char
  description : List Char
deriving Repr, DecidableEq

/-- A `business_value.items` entry (`icon`, `title`, `description`). -/
structure BVItem where
  icon : List Char
  title : List Char
  description : List Char
deriving Repr, DecidableEq

/-- The `business_value` record (`title`, `items`). -/
structure BusinessValue where
  title : List Char
  items : List BVItem
deriving Repr, DecidableEq

/-- A `project_links` entry; `style` is optional (`link.get("style", "")`). -/
structure ProjectLink where
  text : List Char
  icon : List Char
  url : List Char
  style : Option (List Char)
deriving Repr, DecidableEq

/-- A custom `visualization_descriptions` entry (`title`, `description`). -/
structure VizDesc where
  title : List Char
  description : List Char
deriving Repr, DecidableEq

/-- The project metadata record handled by `extract_project_info`.  The
`visualization_descriptions` mapping is optional: the code reads it with
`project_info.get("visualization_descriptions", {})`. -/
structure ProjectInfo where
  title : List Char
  description : List Char
  tech_stack : List (List Char)
  insights : List Insight
  summary : List Char
  key_insights : List KeyInsight
  technical_implementation : List TechItem
  business_value : BusinessValue
  project_links : List ProjectLink
  visualization_descriptions : Option (List (List Char × VizDesc))
deriving Repr, DecidableEq

/-- One value of the visualization map (`title`, `image`, `description`). -/
structure VizEntry where
  title : List Char
  image : List Char
  description : List Char
deriving Repr, DecidableEq

/-- The built-in default `ProjectInfo` literal of `extract_project_info`
(source lines 56-152); its `title` is the project name passed to the
generator, and it carries no `visualization_descriptions` key. -/
def defaultProjectInfo (project_name : List Char) : ProjectInfo where
  title := project_name
  description :=
    ("Comprehensive data analysis and visualization project showcasing advanced analytics capabilities.").data
  tech_stack :=
    [("Python").data, ("Pandas").data, ("Matplotlib").data, ("Seaborn").data,
     ("Plotly").data, ("Data Analysis").data]
  insights :=
    [⟨("6").data, ("Comprehensive Datasets Analyzed").data⟩,
     ⟨("127,579").data, ("Data Points Processed").data⟩,
     ⟨("2,510").data, ("Records Analyzed").data⟩,
     ⟨("8.7%").data, ("Performance Improvement").data⟩]
  summary :=
    ("This project demonstrates advanced data analysis skills through comprehensive examination of complex datasets, providing actionable insights and professional visualizations.").data
  key_insights :=
    [⟨("fas fa-chart-line").data, ("Data-Driven Insights").data,
      ("Comprehensive analysis revealing key patterns and trends in the dataset.").data⟩,
     ⟨("fas fa-database").data, ("Robust Data Processing").data,
      ("Efficient handling and processing of large-scale datasets with optimized performance.").data⟩,
     ⟨("fas fa-eye").data, ("Clear Visualizations").data,
      ("Professional-grade visualizations that communicate insights effectively.").data⟩,
     ⟨("fas fa-cogs").data, ("Technical Excellence").data,
      ("Advanced statistical analysis and machine learning techniques applied.").data⟩]
  technical_implementation :=
    [⟨("Data Pipeline").data,
      ("End-to-end analysis workflow from data collection through visualization, including data cleaning, feature engineering, and quality assurance processes.").data⟩,
     ⟨("Statistical Analysis").data,
      ("Advanced statistical methods including trend analysis, correlation studies, seasonal decomposition, and predictive modeling.").data⟩,
     ⟨("Visualization Design").data,
      ("Professional-grade static and interactive visualizations using modern libraries with custom styling and responsive design principles.").data⟩,
     ⟨("Business Intelligence").data,
      ("KPI development, executive reporting, and stakeholder communication through data-driven insights and actionable recommendations.").data⟩]
  business_value :=
    ⟨("For Data-Driven Organizations").data,
     [⟨("fas fa-chart-bar").data, ("Performance Metrics").data,
       ("Quantifiable results and ROI analysis").data⟩,
      ⟨("fas fa-search").data, ("Pattern Recognition").data,
       ("Long-term trend identification and forecasting").data⟩,
      ⟨("fas fa-cogs").data, ("Process Optimization").data,
       ("Efficiency improvement opportunities").data⟩,
      ⟨("fas fa-users").data, ("Stakeholder Communication").data,
       ("Clear data visualization and executive reporting").data⟩]⟩
  project_links :=
    [⟨("Interactive Dashboard").data, ("fas fa-chart-line").data, ("dashboard.html").data,
      some (("background: linear-gradient(135deg, #2563eb, #7c3aed);").data)⟩,
     ⟨("Documentation").data, ("fas fa-book").data, ("README.md").data,
      some (("background: linear-gradient(135deg, #7c3aed, #4ecdc4);").data)⟩,
     ⟨("Source Code").data, ("fas fa-code").data, ("analysis.py").data,
      some (("background: linear-gradient(135deg, #4ecdc4, #fbbf24);").data)⟩]
  visualization_descriptions := none

/-- The "snowpack" entry of the keyword-description dictionary
(source lines 188-198), transcribed verbatim. -/
def snowpackDesc : List Char :=
  ("\n                <h3>Key Insights</h3>\n                <p>This comprehensive analysis reveals critical patterns and trends in the dataset:</p>\n                <ul>\n                    <li><strong>Data Quality:</strong> High-quality dataset with comprehensive coverage</li>\n                    <li><strong>Trend Analysis:</strong> Clear patterns identified through statistical analysis</li>\n                    <li><strong>Performance Metrics:</strong> Quantifiable improvements demonstrated</li>\n                    <li><strong>Business Impact:</strong> Actionable insights for decision-making</li>\n                </ul>\n                <p>The analysis demonstrates excellent data quality and provides valuable insights for strategic planning.</p>\n            ").data

/-- The "reservoir" entry of the keyword-description dictionary
(source lines 199-209), transcribed verbatim. -/
def reservoirDesc : List Char :=
  ("\n                <h3>Operational Excellence</h3>\n                <p>This analysis shows effective data processing and management:</p>\n                <ul>\n                    <li><strong>System Performance:</strong> Optimal processing efficiency achieved</li>\n                    <li><strong>Data Integrity:</strong> High-quality data with minimal errors</li>\n                    <li><strong>Scalability:</strong> System designed for future growth</li>\n                    <li><strong>Reliability:</strong> Consistent performance across all metrics</li>\n                </ul>\n                <p>The system demonstrates robust performance and reliability throughout the analysis period.</p>\n            ").data

/-- The "deliveries" entry of the keyword-description dictionary
(source lines 210-220), transcribed verbatim. -/
def deliveriesDesc : List Char :=
  ("\n                <h3>System Performance</h3>\n                <p>This analysis reveals efficient data processing patterns:</p>\n                <ul>\n                    <li><strong>Throughput:</strong> High-volume data processing capabilities</li>\n                    <li><strong>Efficiency:</strong> Optimized algorithms for maximum performance</li>\n                    <li><strong>Accuracy:</strong> Precise results with minimal variance</li>\n                    <li><strong>Scalability:</strong> System handles increasing data loads effectively</li>\n                </ul>\n                <p>The analysis demonstrates reliable data processing with strong performance characteristics.</p>\n            ").data

/-- The "conservation" entry of the keyword-description dictionary
(source lines 221-231), transcribed verbatim. -/
def conservationDesc : List Char :=
  ("\n                <h3>Measurable Impact</h3>\n                <p>This analysis shows significant improvements and measurable results:</p>\n                <ul>\n                    <li><strong>Performance Gains:</strong> Substantial improvements across key metrics</li>\n                    <li><strong>Data Quality:</strong> High-quality results with comprehensive coverage</li>\n                    <li><strong>Methodology:</strong> Robust analytical approach with validated results</li>\n                    <li><strong>Business Value:</strong> Clear ROI and strategic insights provided</li>\n                </ul>\n                <p>These results demonstrate successful implementation and measurable business impact.</p>\n            ").data

/-- The "gpcd" entry of the keyword-description dictionary
(source lines 232-242), transcribed verbatim. -/
def gpcdDesc : List Char :=
  ("\n                <h3>Success Metrics</h3>\n                <p>This analysis demonstrates successful outcomes and positive trends:</p>\n                <ul>\n                    <li><strong>Improvement Trend:</strong> Consistent positive performance over time</li>\n                    <li><strong>Benchmark Performance:</strong> Results exceed industry standards</li>\n                    <li><strong>Statistical Significance:</strong> Robust statistical validation of results</li>\n                    <li><strong>Strategic Value:</strong> Clear business impact and decision support</li>\n                </ul>\n                <p>The analysis indicates successful implementation with measurable positive outcomes.</p>\n            ").data

/-- The generic fallback description (source lines 252-262),
transcribed verbatim. -/
def defaultVizDesc : List Char :=
  ("\n            <h3>Analysis Results</h3>\n            <p>This visualization presents key findings from the comprehensive data analysis:</p>\n            <ul>\n                <li><strong>Data Insights:</strong> Important patterns and trends identified</li>\n                <li><strong>Statistical Analysis:</strong> Robust methodology with validated results</li>\n                <li><strong>Performance Metrics:</strong> Quantifiable improvements demonstrated</li>\n                <li><strong>Business Impact:</strong> Actionable insights for strategic planning</li>\n            </ul>\n            <p>The analysis provides valuable insights that support data-driven decision making.</p>\n        ").data

/-- The keyword-description dictionary of
`generate_visualization_description`, in its (insertion-ordered) key order:
snowpack, reservoir, deliveries, conservation, gpcd. -/
def descList : List (List Char × List Char) :=
  [(("snowpack").data, snowpackDesc),
   (("reservoir").data, reservoirDesc),
   (("deliveries").data, deliveriesDesc),
   (("conservation").data, conservationDesc),
   (("gpcd").data, gpcdDesc)]

/-- Filesystem contents visible to one generation run.
`folderFiles = none` models a nonexistent project folder; otherwise it lists
the file names in the folder, in filesystem enumeration order.
`templateText` is `tools/project-template.html` when readable.
`configFile`/`summaryFile` model `project_config.json`/`analysis_summary.json`:
absent, present-but-malformed (`Except.error`), or parsed (`Except.ok`). -/
structure Fs where
  folderFiles : Option (List (List Char))
  templateText : Option (List Char)
  configFile : Option (Except Unit ProjectInfo)
  summaryFile : Option (Except Unit ProjectInfo)
deriving Repr, DecidableEq

/-- Fatal errors raised during generation: a missing template file, or a
malformed config/summary file (Python `IOError` / `json` decode error). -/
inductive GenError where
  | templateMissing
  | schemaError
deriving Repr, DecidableEq

/-- Glob match of one file name against one `*.<ext>` image pattern: the
name carries the extension as a suffix and, as `glob` skips dotfiles for a
`*`-led pattern, does not start with a dot. -/
def matchesExt (ext name : List Char) : Bool :=
  name.head? != some '.' && isSuffixB ext name

/-- The image extension allow-set of `find_visualizations`. -/
def imageExts : List (List Char) :=
  [(".png").data, (".jpg").data, (".jpeg").data, (".gif").data, (".svg").data]

/-- `find_visualizations` (source lines 24-32): per extension, glob the
folder for matches, accumulate, then sort the full paths. -/
def find_visualizations (project_folder : List Char)
    (files : List (List Char)) : List (List Char) :=
  sortStr
    ((imageExts.map (fun ext =>
      (files.filter (matchesExt ext)).map (fun n => pyJoin project_folder n))).flatten)

/-- Glob match of one file name against `*dashboard*.html`. -/
def matchesDashboard (name : List Char) : Bool :=
  name.head? != some '.' && isSuffixB ((".html").data) name
    && isInfixB (("dashboard").data) (name.take (name.length - 5))

/-- `find_dashboard` (source lines 34-37): first `*dashboard*.html` match in
enumeration order, or `none`. -/
def find_dashboard (project_folder : List Char)
    (files : List (List Char)) : Option (List Char) :=
  (((files.filter matchesDashboard).map (fun n => pyJoin project_folder n))).head?

/-- `extract_project_info` (source lines 39-152): parse and return the
config file whole when it exists, else the summary file whole when it
exists, else the built-in default record.  A present-but-malformed file
propagates a schema error. -/
def extract_project_info (project_name : List Char) (fs : Fs) :
    Except GenError ProjectInfo :=
  match fs.configFile with
  | some (.ok p) => .ok p
  | some (.error _) => .error .schemaError
  | none =>
    match fs.summaryFile with
    | some (.ok p) => .ok p
    | some (.error _) => .error .schemaError
    | none => .ok (defaultProjectInfo project_name)

/-- `project_info.get("visualization_descriptions", {})` (source line 159). -/
def customDescriptions (info : ProjectInfo) : List (List Char × VizDesc) :=
  info.visualization_descriptions.getD []

/-- The normalized visualization key as computed in
`generate_visualization_data` (source line 167):
`name.lower().replace('_', '').replace('-', '').replace(' ', '')`. -/
def vizKeyData (name : List Char) : List Char :=
  pyReplace (pyReplace (pyReplace (pyLower name) (("_").data) [])
    (("-").data) []) ((" ").data) []

/-- The same normalization as recomputed in `generate_visualizations_html`
(source line 324). -/
def vizKeyCard (name : List Char) : List Char :=
  pyReplace (pyReplace (pyReplace (pyLower name) (("_").data) [])
    (("-").data) []) ((" ").data) []

/-- The keyword scan of `generate_visualization_description`
(source lines 245-249): return the description of the first dictionary key
occurring in the lowercased name, else the fallback. -/
def descScan (name_lower : List Char) :
    List (List Char × List Char) → List Char
  | [] => defaultVizDesc
  | (k, d) :: t => if isInfixB k name_lower then d else descScan name_lower t

/-- `generate_visualization_description` (source lines 185-262). -/
def generate_visualization_description (name : List Char) : List Char :=
  descScan (pyLower name) descList

/-- The derived display title (source line 174):
`name.replace('_', ' ').title()`. -/
def derivedTitle (name : List Char) : List Char :=
  pyTitle (pyReplace name (("_").data) ((" ").data))

/-- The body of the `generate_visualization_data` loop for one image path
(source lines 161-181): derive the normalized key, then the entry, using a
custom description verbatim when the key is present. -/
def mkVizEntry (project_folder : List Char) (info : ProjectInfo)
    (image_path : List Char) : List Char × VizEntry :=
  let filename := basenameOf image_path
  let name := splitextStem filename
  let viz_key := vizKeyData name
  let image := ("../").data ++ pyJoin project_folder filename
  match lookupB viz_key (customDescriptions info) with
  | some d => (viz_key, ⟨d.title, image, d.description⟩)
  | none =>
    (viz_key, ⟨derivedTitle name, image, generate_visualization_description name⟩)

/-- `generate_visualization_data` (source lines 154-183): fold the images in
order into a dict keyed by the normalized key. -/
def generate_visualization_data (project_folder : List Char)
    (images : List (List Char)) (info : ProjectInfo) :
    List (List Char × VizEntry) :=
  images.foldl
    (fun d p =>
      let ke := mkVizEntry project_folder info p
      dictInsert ke.1 ke.2 d) []

/-- `generate_tech_stack_html` (source lines 296-298). -/
def generate_tech_stack_html (tech_stack : List (List Char)) : List Char :=
  (tech_stack.map (fun tech =>
    ("<span class=\"tech-item\">").data ++ tech ++ ("</span>").data)).flatten

/-- `generate_insight_cards_html` (source lines 300-305). -/
def generate_insight_cards_html (insights : List Insight) : List Char :=
  (insights.map (fun i =>
    ("<div class=\"insight-card\"><h3>").data ++ i.value
      ++ ("</h3><p>").data ++ i.label ++ ("</p></div>").data)).flatten

/-- `generate_key_insights_html` (source lines 307-316). -/
def generate_key_insights_html (key_insights : List KeyInsight) : List Char :=
  (key_insights.map (fun i =>
    ("<div class=\"insight-card\">\n                <i class=\"").data ++ i.icon
      ++ ("\" style=\"font-size: 2rem; color: #2563eb; margin-bottom: 1rem;\"></i>\n                <h3>").data
      ++ i.title ++ ("</h3>\n                <p>").data ++ i.description
      ++ ("</p>\n            </div>").data)).flatten

/-- One visualization card of `generate_visualizations_html`
(source lines 321-338). -/
def vizCardHtml (project_folder : List Char) (image_path : List Char) :
    List Char :=
  let filename := basenameOf image_path
  let name := splitextStem filename
  let viz_key := vizKeyCard name
  let title := derivedTitle name
  ("\n                <div class=\"viz-card\" onclick=\"").data
    ++ (("expandVisualization(\x27").data ++ viz_key ++ ("\x27)").data)
    ++ ("\">\n                    <img src=\"../").data
    ++ pyJoin project_folder filename
    ++ ("\" alt=\"").data ++ title
    ++ ("\">\n                    <div class=\"viz-card-content\">\n                        <h3>").data
    ++ title
    ++ ("</h3>\n                        <p>Comprehensive analysis showing key patterns, trends, and insights from the dataset.</p>\n                        <div class=\"expand-hint\">\n                            <i class=\"fas fa-expand-arrows-alt\"></i> Click to expand\n                        </div>\n                    </div>\n                </div>\n            ").data

/-- `generate_visualizations_html` (source lines 318-339): concatenate one
card per image, in order. -/
def generate_visualizations_html (project_folder : List Char)
    (images : List (List Char)) : List Char :=
  images.foldl (fun html p => html ++ vizCardHtml project_folder p) []

/-- `generate_technical_implementation_html` (source lines 341-349). -/
def generate_technical_implementation_html (items : List TechItem) :
    List Char :=
  (items.map (fun i =>
    ("<div class=\"insight-card\">\n                <h3>").data ++ i.title
      ++ ("</h3>\n                <p>").data ++ i.description
      ++ ("</p>\n            </div>").data)).flatten

/-- `generate_business_value_html` (source lines 351-360). -/
def generate_business_value_html (items : List BVItem) : List Char :=
  (items.map (fun i =>
    ("<div>\n                <i class=\"").data ++ i.icon
      ++ ("\" style=\"font-size: 2rem; color: #2563eb; margin-bottom: 1rem;\"></i>\n                <h4>").data
      ++ i.title ++ ("</h4>\n                <p>").data ++ i.description
      ++ ("</p>\n            </div>").data)).flatten

/-- `generate_project_links_html` (source lines 362-370). -/
def generate_project_links_html (links : List ProjectLink) : List Char :=
  (links.map (fun l =>
    ("<a href=\"").data ++ l.url
      ++ ("\" class=\"dashboard-link\" target=\"_blank\" style=\"").data
      ++ l.style.getD []
      ++ ("\">\n                <i class=\"").data ++ l.icon
      ++ ("\"></i>\n                ").data ++ l.text
      ++ ("\n            </a>").data)).flatten

/-- One hexadecimal digit character. -/
def hexDigit (n : Nat) : Char :=
  if n < 10 then Char.ofNat (48 + n) else Char.ofNat (87 + n)

/-- `json.dumps` escaping of one character (default `ensure_ascii=True`;
the generator's data stays in the basic plane). -/
def jsonEscapeChar (c : Char) : List Char :=
  if c = '"' then ("\\\"").data
  else if c = '\\' then ("\\\\").data
  else if c = '\n' then ("\\n").data
  else if c = '\t' then ("\\t").data
  else if c = '\r' then ("\\r").data
  else if c = '\x08' then ("\\b").data
  else if c = '\x0c' then ("\\f").data
  else if c.toNat < 32 ∨ 126 < c.toNat then
    '\\' :: 'u' :: [hexDigit (c.toNat / 4096 % 16), hexDigit (c.toNat / 256 % 16),
      hexDigit (c.toNat / 16 % 16), hexDigit (c.toNat % 16)]
  else [c]

/-- `json.dumps` escaping of a string. -/
def jsonEscape (s : List Char) : List Char := (s.map jsonEscapeChar).flatten

/-- Join pieces with a separator. -/
def joinSep (sep : List Char) : List (List Char) → List Char
  | [] => []
  | [x] => x
  | x :: y :: t => x ++ sep ++ joinSep sep (y :: t)

/-- The `json.dumps(…, indent=2)` rendering of one visualization entry. -/
def jsonEntryLines (k : List Char) (e : VizEntry) : List Char :=
  ("  \"").data ++ jsonEscape k ++ ("\": ").data ++ [lbrace]
    ++ ("\n    \"title\": \"").data ++ jsonEscape e.title
    ++ ("\",\n    \"image\": \"").data ++ jsonEscape e.image
    ++ ("\",\n    \"description\": \"").data ++ jsonEscape e.description
    ++ ("\"\n  ").data ++ [rbrace]

/-- `json.dumps(viz_data, indent=2)` (source line 288) for the two-level
dict shape produced by `generate_visualization_data`. -/
def jsonDumps (d : List (List Char × VizEntry)) : List Char :=
  if d.isEmpty then [lbrace, rbrace]
  else
    [lbrace] ++ ("\n").data
      ++ joinSep ((",\n").data) (d.map (fun ke => jsonEntryLines ke.1 ke.2))
      ++ ("\n").data ++ [rbrace]

/-- The literal placeholder token for a name: two opening braces, the name,
two closing braces. -/
def tok (name : List Char) : List Char :=
  lbrace :: lbrace :: (name ++ [rbrace, rbrace])

/-- The 15 recognized placeholder names, in the insertion order of the
`replacements` dict of `generate_html` (source lines 273-289). -/
def placeholderNames : List (List Char) :=
  [("PROJECT_TITLE").data, ("PROJECT_DESCRIPTION").data, ("TECH_STACK").data,
   ("INSIGHT_CARDS").data, ("PROJECT_SUMMARY").data, ("KEY_INSIGHTS").data,
   ("VISUALIZATIONS").data, ("DASHBOARD_TITLE").data,
   ("DASHBOARD_DESCRIPTION").data, ("DASHBOARD_LINK").data,
   ("TECHNICAL_IMPLEMENTATION").data, ("BUSINESS_VALUE_TITLE").data,
   ("BUSINESS_VALUE_ITEMS").data, ("PROJECT_LINKS").data,
   ("VISUALIZATION_DATA").data]

/-- The fixed `DASHBOARD_TITLE` replacement value (source line 281). -/
def dashboardTitleText : List Char := ("Interactive Analysis Dashboard").data

/-- The fixed `DASHBOARD_DESCRIPTION` replacement value (source line 282). -/
def dashboardDescriptionText : List Char :=
  ("An interactive dashboard combining all analyses into a single, explorable interface with real-time data exploration capabilities.").data

/-- The `replacements` dict of `generate_html` (source lines 273-289), as a
name/value list in insertion order. -/
def replacementPairs (project_folder : List Char) (info : ProjectInfo)
    (images : List (List Char)) (dashboard : Option (List Char))
    (viz_data : List (List Char × VizEntry)) :
    List (List Char × List Char) :=
  [(("PROJECT_TITLE").data, info.title),
   (("PROJECT_DESCRIPTION").data, info.description),
   (("TECH_STACK").data, generate_tech_stack_html info.tech_stack),
   (("INSIGHT_CARDS").data, generate_insight_cards_html info.insights),
   (("PROJECT_SUMMARY").data, info.summary),
   (("KEY_INSIGHTS").data, generate_key_insights_html info.key_insights),
   (("VISUALIZATIONS").data, generate_visualizations_html project_folder images),
   (("DASHBOARD_TITLE").data, dashboardTitleText),
   (("DASHBOARD_DESCRIPTION").data, dashboardDescriptionText),
   (("DASHBOARD_LINK").data,
     match dashboard with
     | some d => ("../").data ++ d
     | none => ("#").data),
   (("TECHNICAL_IMPLEMENTATION").data,
     generate_technical_implementation_html info.technical_implementation),
   (("BUSINESS_VALUE_TITLE").data, info.business_value.title),
   (("BUSINESS_VALUE_ITEMS").data,
     generate_business_value_html info.business_value.items),
   (("PROJECT_LINKS").data, generate_project_links_html info.project_links),
   (("VISUALIZATION_DATA").data, jsonDumps viz_data)]

/-- The substitution loop of `generate_html` (source lines 291-292): fold
`template.replace(placeholder, value)` over the pairs in order. -/
def composeLoop (pairs : List (List Char × List Char))
    (template : List Char) : List Char :=
  pairs.foldl (fun t pv => pyReplace t (tok pv.1) pv.2) template

/-- `generate_html` (source lines 264-294). -/
def generate_html (project_name project_folder : List Char) (fs : Fs) :
    Except GenError (List Char) :=
  match fs.templateText with
  | none => .error .templateMissing
  | some template =>
    match extract_project_info project_name fs with
    | .error e => .error e
    | .ok project_info =>
      let files := fs.folderFiles.getD []
      let images := find_visualizations project_folder files
      let dashboard := find_dashboard project_folder files
      let viz_data := generate_visualization_data project_folder images project_info
      .ok (composeLoop
        (replacementPairs project_folder project_info images dashboard viz_data)
        template)

/-- The output path of the generator (source line 17):
`website/<name lowercased, spaces to hyphens>-project.html`. -/
def output_path (project_name : List Char) : List Char :=
  ("website/").data ++ pyReplace (pyLower project_name) ((" ").data) (("-").data)
    ++ ("-project.html").data

/-- `save_project_page` (source lines 372-380): compose the whole document,
then write it.  The first component lists the write events of the run
(path, content); on a generation error nothing is written. -/
def save_project_page (project_name project_folder : List Char) (fs : Fs) :
    List (List Char × List Char) × Except GenError (List Char) :=
  match generate_html project_name project_folder fs with
  | .error e => ([], .error e)
  | .ok html => ([(output_path project_name, html)], .ok (output_path project_name))

/-- Outcome of a CLI run (`main`, source lines 382-403): usage text for
fewer than two arguments, an error message for a missing folder, or a
generation attempt with its write events and result. -/
inductive MainOut where
  | usage
  | folderMissing
  | ran (writes : List (List Char × List Char))
        (result : Except GenError (List Char))
deriving Repr, DecidableEq

/-- `main` (source lines 382-403): check the argument count, then the
existence of the project folder, then generate and save. -/
def pythonMain (argv : List (List Char)) (fs : Fs) : MainOut :=
  if argv.length < 3 then .usage
  else
    let project_name := argv.getD 1 []
    let project_folder := argv.getD 2 []
    if fs.folderFiles.isNone then .folderMissing
    else
      let wr := save_project_page project_name project_folder fs
      .ran wr.1 wr.2

/-- Removing a list of characters one `replace` at a time, in the given
order (the shape of the key-normalization chain). -/
def removeChain (cs : List Char) (s : List Char) : List Char :=
  cs.foldl (fun acc c => pyReplace acc [c] []) s

/-- The onclick key reference inside a visualization card. -/
def onclickFrag (k : List Char) : List Char :=
  ("expandVisualization(\x27").data ++ k ++ ("\x27)").data

/-!
### Template model for the substitution loop (C1, C5)

A template is modelled as a list of segments: literal stretches and
placeholder tokens; `flattenSegs` is its text.  A literal stretch (and
every substituted value) is well formed when it contains no two adjacent
opening braces and does not end in an opening brace; a placeholder name is
well formed when it contains no brace.  Under these conditions every match
of a placeholder token in the evolving text starts exactly at a
placeholder segment, which reduces the character-level `replace` loop to
segment-wise substitution.
-/

/-- One template segment: a literal stretch or a placeholder. -/
inductive Seg where
  | lit (s : List Char)
  | ph (name : List Char)
deriving Repr, DecidableEq

/-- The text of one segment. -/
def segStr : Seg → List Char
  | .lit s => s
  | .ph m => tok m

/-- The template text of a segment list. -/
def flattenSegs (segs : List Seg) : List Char :=
  (segs.map segStr).flatten

/-- Well-formed piece of text: no two adjacent opening braces inside, and
not ending in an opening brace. -/
def wfPiece (s : List Char) : Bool :=
  !(isInfixB [lbrace, lbrace] s) && !(lastC s == some lbrace)

/-- A name with no brace characters. -/
def braceFree (m : List Char) : Bool :=
  m.all (fun c => (c != lbrace) && (c != rbrace))

/-- Well-formed segment. -/
def wfSeg : Seg → Bool
  | .lit s => wfPiece s
  | .ph m => braceFree m

/-- The segment's placeholder name, when present, is recognized. -/
def phNamed : Seg → Bool
  | .lit _ => true
  | .ph m => placeholderNames.contains m

/-- Substituting one placeholder at segment level. -/
def substOne (n v : List Char) : Seg → Seg
  | .lit s => .lit s
  | .ph m => if m = n then .lit v else .ph m

/-- Running all substitutions of a pair list, in order, at segment
level. -/
def substList (pairs : List (List Char × List Char)) (segs : List Seg) :
    List Seg :=
  pairs.foldl (fun ss pv => ss.map (substOne pv.1 pv.2)) segs

/-- The aggregate effect of a pair list on one segment: a placeholder is
replaced by the first value bound to its name, if any. -/
def finalSub (pairs : List (List Char × List Char)) : Seg → Seg
  | .lit s => .lit s
  | .ph m =>
    match lookupB m pairs with
    | some v => .lit v
    | none => .ph m

/-- A small fully populated metadata record, used to instantiate theorems
about the composition step at a concrete input. -/
def tinyInfo : ProjectInfo where
  title := ("T").data
  description := ("D").data
  tech_stack := [("Py").data]
  insights := [⟨("1").data, ("L").data⟩]
  summary := ("S").data
  key_insights := [⟨("ic").data, ("ti").data, ("de").data⟩]
  technical_implementation := [⟨("ti").data, ("de").data⟩]
  business_value := ⟨("B").data, [⟨("ic").data, ("ti").data, ("de").data⟩]⟩
  project_links := [⟨("tx").data, ("ic").data, ("u").data, none⟩]
  visualization_descriptions := none

/-- A small well-formed template, used to instantiate theorems about the
composition step at a concrete input. -/
def tinySegs : List Seg :=
  [Seg.lit (("<html>").data), Seg.ph (("PROJECT_TITLE").data),
   Seg.lit (("<body>").data), Seg.ph (("VISUALIZATION_DATA").data),
   Seg.lit (("</html>").data)]

/-- The file names of the C5 end-to-end scenario. -/
def c5files : List (List Char) :=
  [("Snow_Pack.png").data, ("reservoir-levels.png").data]

/-- The project folder of the C5 end-to-end scenario. -/
def c5folder : List Char := ("water-conservation-analysis").data

/-- The project name of the C5 end-to-end scenario. -/
def c5name : List Char := ("Water Conservation Analysis").data

/-- The filesystem of the C5 end-to-end scenario: the two images, a
readable template, no config file, no summary file, no dashboard. -/
def c5fs (template : List Char) : Fs :=
  ⟨some c5files, some template, none, none⟩

/-- A small template carrying the placeholders the C5 scenario checks. -/
def c5segs : List Seg :=
  [Seg.lit (("<html>").data), Seg.ph (("VISUALIZATIONS").data),
   Seg.lit (("<a>").data), Seg.ph (("DASHBOARD_LINK").data),
   Seg.lit (("</html>").data)]

/-! ### Basic lemmas about the string model -/

theorem isPrefixB_iff (p : List Char) :
    ∀ s, isPrefixB p s = true ↔ ∃ b, s = p ++ b := by
  induction p with
  | nil => intro s; simp [isPrefixB]
  | cons c ps ih =>
    intro s
    cases s with
    | nil => simp [isPrefixB]
    | cons d ds =>
      simp only [isPrefixB, Bool.and_eq_true, beq_iff_eq, ih, List.cons_append,
        List.cons.injEq]
      constructor
      · rintro ⟨rfl, b, rfl⟩; exact ⟨b, rfl, rfl⟩
      · rintro ⟨b, rfl, rfl⟩; exact ⟨rfl, b, rfl⟩

theorem isInfixB_iff (p : List Char) :
    ∀ s, isInfixB p s = true ↔ ∃ a b, s = a ++ p ++ b := by
  intro s
  induction s with
  | nil =>
    simp only [isInfixB, isPrefixB_iff]
    constructor
    · rintro ⟨b, h⟩; exact ⟨[], b, by simpa using h⟩
    · rintro ⟨a, b, h⟩
      have h' : a = [] ∧ p = [] ∧ b = [] := by simpa using h.symm
      exact ⟨[], by simp [h'.2.1]⟩
  | cons c cs ih =>
    simp only [isInfixB, Bool.or_eq_true, isPrefixB_iff, ih]
    constructor
    · rintro (⟨b, h⟩ | ⟨a, b, h⟩)
      · exact ⟨[], b, by simpa using h⟩
      · exact ⟨c :: a, b, by simp [h]⟩
    · rintro ⟨a, b, h⟩
      cases a with
      | nil => exact Or.inl ⟨b, by simpa using h⟩
      | cons a0 as =>
        right
        refine ⟨as, b, ?_⟩
        simp only [List.cons_append, List.cons.injEq] at h
        exact h.2

theorem isPrefixB_append_self (p b : List Char) :
    isPrefixB p (p ++ b) = true :=
  (isPrefixB_iff p _).mpr ⟨b, rfl⟩

theorem isInfixB_sandwich (p a b : List Char) :
    isInfixB p (a ++ p ++ b) = true :=
  (isInfixB_iff p _).mpr ⟨a, b, rfl⟩

theorem isInfixB_trans {p q s : List Char} (h1 : isInfixB p q = true)
    (h2 : isInfixB q s = true) : isInfixB p s = true := by
  rcases (isInfixB_iff p q).mp h1 with ⟨a, b, hq⟩
  rcases (isInfixB_iff q s).mp h2 with ⟨x, y, hs⟩
  refine (isInfixB_iff p s).mpr ⟨x ++ a, b ++ y, ?_⟩
  rw [hs, hq]
  simp [List.append_assoc]

theorem pyReplaceF_fuel (pat rep : List Char) :
    ∀ (f f' : Nat) (s : List Char), s.length ≤ f → s.length ≤ f' →
      pyReplaceF pat rep f s = pyReplaceF pat rep f' s := by
  intro f
  induction f with
  | zero =>
    intro f' s hf _
    have hs : s = [] := List.length_eq_zero.mp (Nat.le_zero.mp hf)
    subst hs
    cases f' <;> rfl
  | succ f ih =>
    intro f' s hf hf'
    cases s with
    | nil => cases f' <;> rfl
    | cons c cs =>
      cases f' with
      | zero => exact absurd hf' (by simp)
      | succ f'' =>
        simp only [List.length_cons] at hf hf'
        have hcs : cs.length ≤ f := by omega
        have hcs' : cs.length ≤ f'' := by omega
        have hd : (List.drop (pat.length - 1) cs).length ≤ f :=
          le_trans (by rw [List.length_drop]; omega) hcs
        have hd' : (List.drop (pat.length - 1) cs).length ≤ f'' :=
          le_trans (by rw [List.length_drop]; omega) hcs'
        simp only [pyReplaceF]
        by_cases hcond : pat ≠ [] ∧ isPrefixB pat (c :: cs) = true
        · rw [if_pos hcond, if_pos hcond]
          exact congrArg (rep ++ ·) (ih f'' _ hd hd')
        · rw [if_neg hcond, if_neg hcond]
          exact congrArg (c :: ·) (ih f'' cs hcs hcs')

theorem pyReplace_nil (pat rep : List Char) : pyReplace [] pat rep = [] := rfl

theorem pyReplace_cons_pos {pat : List Char} {c : Char} {cs : List Char}
    (hne : pat ≠ []) (hp : isPrefixB pat (c :: cs) = true) (rep : List Char) :
    pyReplace (c :: cs) pat rep
      = rep ++ pyReplace (List.drop pat.length (c :: cs)) pat rep := by
  have h1 : pat.length - 1 + 1 = pat.length :=
    Nat.succ_pred_eq_of_pos (List.length_pos.mpr hne)
  have h2 : List.drop pat.length (c :: cs) = List.drop (pat.length - 1) cs := by
    conv_lhs => rw [← h1]
    rw [List.drop_succ_cons]
  show pyReplaceF pat rep (c :: cs).length (c :: cs)
      = rep ++ pyReplace (List.drop pat.length (c :: cs)) pat rep
  simp only [List.length_cons, pyReplaceF]
  rw [if_pos ⟨hne, hp⟩, h2]
  show rep ++ _ = rep ++ pyReplaceF pat rep
    (List.drop (pat.length - 1) cs).length (List.drop (pat.length - 1) cs)
  exact congrArg (rep ++ ·) (pyReplaceF_fuel pat rep cs.length _ _
    (by rw [List.length_drop]; omega) le_rfl)

theorem pyReplace_cons_neg {pat : List Char} {c : Char} {cs : List Char}
    (hp : isPrefixB pat (c :: cs) = false) (rep : List Char) :
    pyReplace (c :: cs) pat rep = c :: pyReplace cs pat rep := by
  show pyReplaceF pat rep (c :: cs).length (c :: cs) = c :: pyReplace cs pat rep
  simp only [List.length_cons, pyReplaceF]
  rw [if_neg (fun hx => absurd hx.2 (by simp [hp]))]
  rfl

/-- Replacing a single character by the empty string is exactly removing
every occurrence of that character. -/
theorem pyReplace_single_eq_filter (c : Char) :
    ∀ s, pyReplace s [c] [] = s.filter (fun x => x != c) := by
  intro s
  induction s with
  | nil => simp [pyReplace_nil]
  | cons x xs ih =>
    by_cases hx : c = x
    · subst hx
      rw [pyReplace_cons_pos (by simp) (by simp [isPrefixB])]
      simp [List.filter_cons, ih]
    · rw [pyReplace_cons_neg (by simp [isPrefixB, hx])]
      have hxc : (x != c) = true := by
        simp only [bne_iff_ne, ne_eq]
        exact fun h => hx h.symm
      simp [List.filter_cons, hxc, ih]

theorem removeChain_eq_filter :
    ∀ (cs : List Char) (s : List Char),
      removeChain cs s = s.filter (fun x => !(decide (x ∈ cs))) := by
  intro cs
  induction cs with
  | nil => intro s; simp [removeChain]
  | cons c cs' ih =>
    intro s
    calc removeChain (c :: cs') s
        = removeChain cs' (pyReplace s [c] []) := rfl
      _ = (s.filter (fun x => x != c)).filter (fun x => !(decide (x ∈ cs'))) := by
            rw [ih, pyReplace_single_eq_filter]
      _ = s.filter (fun x => !(decide (x ∈ c :: cs'))) := by
            rw [List.filter_filter]
            apply List.filter_congr
            intro x _
            by_cases h1 : x ∈ cs' <;> by_cases h2 : x = c <;>
              simp [h1, h2, List.mem_cons]

theorem removeChain_perm {cs cs' : List Char} (h : cs.Perm cs')
    (s : List Char) : removeChain cs s = removeChain cs' s := by
  rw [removeChain_eq_filter, removeChain_eq_filter]
  apply List.filter_congr
  intro x _
  simp [h.mem_iff]

theorem isInfixB_refl (p : List Char) : isInfixB p p = true := by
  have := isInfixB_sandwich p [] []
  simpa using this

theorem isInfixB_append_right {p s : List Char} (h : isInfixB p s = true)
    (t : List Char) : isInfixB p (s ++ t) = true := by
  rcases (isInfixB_iff p s).mp h with ⟨a, b, rfl⟩
  exact (isInfixB_iff p _).mpr ⟨a, b ++ t, by simp⟩

theorem isInfixB_append_left {p s : List Char} (h : isInfixB p s = true)
    (t : List Char) : isInfixB p (t ++ s) = true := by
  rcases (isInfixB_iff p s).mp h with ⟨a, b, rfl⟩
  exact (isInfixB_iff p _).mpr ⟨t ++ a, b, by simp⟩

theorem isInfixB_self_append (p a : List Char) :
    isInfixB p (a ++ p) = true := by
  have := isInfixB_sandwich p a []
  simpa using this

/-! ### Dictionary lemmas -/

theorem dictInsert_nil {α : Type} (k : List Char) (v : α) :
    dictInsert k v ([] : List (List Char × α)) = [(k, v)] := rfl

theorem dictInsert_cons {α : Type} (k : List Char) (v : α) (k' : List Char)
    (v' : α) (t : List (List Char × α)) :
    dictInsert k v ((k', v') :: t)
      = if k' = k then (k', v) :: t else (k', v') :: dictInsert k v t := rfl

theorem lookupB_nil {α : Type} (k : List Char) :
    lookupB k ([] : List (List Char × α)) = none := rfl

theorem lookupB_cons {α : Type} (k k' : List Char) (v : α)
    (t : List (List Char × α)) :
    lookupB k ((k', v) :: t) = if k = k' then some v else lookupB k t := rfl

theorem keys_dictInsert_self {α : Type} (k : List Char) (v : α) :
    ∀ d : List (List Char × α), k ∈ (dictInsert k v d).map Prod.fst := by
  intro d
  induction d with
  | nil =>
    rw [dictInsert_nil]
    exact List.mem_singleton.mpr rfl
  | cons kv t ih =>
    obtain ⟨k', v'⟩ := kv
    by_cases h : k' = k
    · rw [dictInsert_cons, if_pos h, List.map_cons]
      exact h ▸ List.mem_cons_self k' _
    · rw [dictInsert_cons, if_neg h, List.map_cons]
      exact List.mem_cons_of_mem _ ih

theorem keys_dictInsert_mono {α : Type} {k0 : List Char} (k : List Char)
    (v : α) :
    ∀ d : List (List Char × α),
      k0 ∈ d.map Prod.fst → k0 ∈ (dictInsert k v d).map Prod.fst := by
  intro d
  induction d with
  | nil => intro h; exact absurd h (by simp)
  | cons kv t ih =>
    obtain ⟨k', v'⟩ := kv
    intro h
    by_cases hk : k' = k
    · rw [dictInsert_cons, if_pos hk, List.map_cons]
      rw [List.map_cons] at h
      exact h
    · rw [dictInsert_cons, if_neg hk, List.map_cons]
      rw [List.map_cons] at h
      rcases List.mem_cons.mp h with h1 | hm
      · exact List.mem_cons.mpr (Or.inl h1)
      · exact List.mem_cons.mpr (Or.inr (ih hm))

theorem keys_dictInsert_sub {α : Type} {k0 : List Char} (k : List Char)
    (v : α) :
    ∀ d : List (List Char × α),
      k0 ∈ (dictInsert k v d).map Prod.fst →
      k0 = k ∨ k0 ∈ d.map Prod.fst := by
  intro d
  induction d with
  | nil =>
    intro h
    rw [dictInsert_nil] at h
    exact Or.inl (by simpa using h)
  | cons kv t ih =>
    obtain ⟨k', v'⟩ := kv
    intro h
    by_cases hk : k' = k
    · rw [dictInsert_cons, if_pos hk, List.map_cons] at h
      rw [List.map_cons]
      rcases List.mem_cons.mp h with h1 | hm
      · exact Or.inr (List.mem_cons.mpr (Or.inl h1))
      · exact Or.inr (List.mem_cons.mpr (Or.inr hm))
    · rw [dictInsert_cons, if_neg hk, List.map_cons] at h
      rw [List.map_cons]
      rcases List.mem_cons.mp h with h1 | hm
      · exact Or.inr (List.mem_cons.mpr (Or.inl h1))
      · rcases ih hm with h1 | h2
        · exact Or.inl h1
        · exact Or.inr (List.mem_cons.mpr (Or.inr h2))

/-- The first component of a visualization entry is always the normalized
key, whichever description branch is taken. -/
theorem mkVizEntry_fst (project_folder : List Char) (info : ProjectInfo)
    (p : List Char) :
    (mkVizEntry project_folder info p).1
      = vizKeyData (splitextStem (basenameOf p)) := by
  unfold mkVizEntry
  dsimp only
  split <;> rfl

theorem gvd_keys_mono (project_folder : List Char) (info : ProjectInfo) :
    ∀ (images : List (List Char)) (acc : List (List Char × VizEntry))
      (k0 : List Char),
      k0 ∈ acc.map Prod.fst →
      k0 ∈ (images.foldl (fun d p =>
        let ke := mkVizEntry project_folder info p
        dictInsert ke.1 ke.2 d) acc).map Prod.fst := by
  intro images
  induction images with
  | nil =>
    intro acc k0 h
    rw [List.foldl_nil]
    exact h
  | cons q qs ih =>
    intro acc k0 h
    rw [List.foldl_cons]
    exact ih _ _ (keys_dictInsert_mono _ _ _ h)

theorem gvd_keys_of_mem (project_folder : List Char) (info : ProjectInfo) :
    ∀ (images : List (List Char)) (acc : List (List Char × VizEntry))
      (p : List Char), p ∈ images →
      vizKeyData (splitextStem (basenameOf p))
        ∈ (images.foldl (fun d p =>
            let ke := mkVizEntry project_folder info p
            dictInsert ke.1 ke.2 d) acc).map Prod.fst := by
  intro images
  induction images with
  | nil => intro acc p hp; exact absurd hp (by simp)
  | cons q qs ih =>
    intro acc p hp
    rw [List.foldl_cons]
    rcases List.mem_cons.mp hp with rfl | hm
    · rw [← mkVizEntry_fst project_folder info p]
      apply gvd_keys_mono
      exact keys_dictInsert_self _ _ acc
    · exact ih _ _ hm

theorem gvd_keys_sub (project_folder : List Char) (info : ProjectInfo) :
    ∀ (images : List (List Char)) (acc : List (List Char × VizEntry))
      (k : List Char),
      k ∈ (images.foldl (fun d p =>
            let ke := mkVizEntry project_folder info p
            dictInsert ke.1 ke.2 d) acc).map Prod.fst →
      k ∈ acc.map Prod.fst
        ∨ ∃ p ∈ images, k = vizKeyData (splitextStem (basenameOf p)) := by
  intro images
  induction images with
  | nil =>
    intro acc k h
    rw [List.foldl_nil] at h
    exact Or.inl h
  | cons q qs ih =>
    intro acc k h
    rw [List.foldl_cons] at h
    rcases ih _ _ h with h1 | ⟨p, hp, hk⟩
    · rcases keys_dictInsert_sub _ _ _ h1 with h2 | h3
      · right
        exact ⟨q, List.mem_cons_self q qs, by rw [h2, mkVizEntry_fst]⟩
      · exact Or.inl h3
    · right
      exact ⟨p, List.mem_cons_of_mem q hp, hk⟩

theorem foldl_append_eq (f : List Char → List Char) :
    ∀ (l : List (List Char)) (acc : List Char),
      l.foldl (fun h p => h ++ f p) acc = acc ++ (l.map f).flatten := by
  intro l
  induction l with
  | nil => intro acc; simp
  | cons q qs ih =>
    intro acc
    rw [List.foldl_cons, ih, List.map_cons, List.flatten_cons,
      List.append_assoc]

theorem gvh_eq_flatten (project_folder : List Char)
    (images : List (List Char)) :
    generate_visualizations_html project_folder images
      = (images.map (vizCardHtml project_folder)).flatten := by
  unfold generate_visualizations_html
  rw [foldl_append_eq (vizCardHtml project_folder) images [], List.nil_append]

theorem onclickFrag_infix_card (project_folder p : List Char) :
    isInfixB (onclickFrag (vizKeyCard (splitextStem (basenameOf p))))
      (vizCardHtml project_folder p) = true := by
  unfold vizCardHtml
  dsimp only
  apply isInfixB_append_right
  apply isInfixB_append_right
  apply isInfixB_append_right
  apply isInfixB_append_right
  apply isInfixB_append_right
  apply isInfixB_append_right
  apply isInfixB_append_right
  exact isInfixB_self_append _ _

theorem card_infix_gvh (project_folder : List Char)
    (images : List (List Char)) (p : List Char) (hp : p ∈ images) :
    isInfixB (vizCardHtml project_folder p)
      (generate_visualizations_html project_folder images) = true := by
  rw [gvh_eq_flatten]
  rcases List.append_of_mem hp with ⟨s, t, rfl⟩
  rw [List.map_append, List.map_cons, List.flatten_append, List.flatten_cons]
  apply isInfixB_append_left
  exact isInfixB_append_right (isInfixB_refl _) _

theorem descScan_cons (nl k d : List Char)
    (t : List (List Char × List Char)) :
    descScan nl ((k, d) :: t)
      = if isInfixB k nl = true then d else descScan nl t := rfl

theorem descScan_eq_find (nl : List Char) :
    ∀ l : List (List Char × List Char),
      descScan nl l
        = (match l.find? (fun kd => isInfixB kd.1 nl) with
           | some kd => kd.2
           | none => defaultVizDesc) := by
  intro l
  induction l with
  | nil => rfl
  | cons kd t ih =>
    obtain ⟨k, d⟩ := kd
    by_cases h : isInfixB k nl = true
    · rw [List.find?_cons_of_pos _ (by simpa using h), descScan_cons, if_pos h]
    · rw [List.find?_cons_of_neg _ (by simpa using h), descScan_cons,
        if_neg h, ih]

/-! ### Claim theorems -/

/-- C2: when both `project_config.json` and `analysis_summary.json` exist,
metadata resolution parses and returns the config file whole and ignores
the summary file entirely (the conclusion does not depend on `s`, which may
even be malformed); an optional field missing from the chosen tier defaults
to empty rather than being inherited from the built-in default record. -/
theorem C2_config_priority (project_name : List Char) (fs : Fs)
    (c : ProjectInfo) (s : Except Unit ProjectInfo)
    (hc : fs.configFile = some (.ok c)) (_hs : fs.summaryFile = some s) :
    extract_project_info project_name fs = .ok c
    ∧ (c.visualization_descriptions = none → customDescriptions c = []) := by
  constructor
  · unfold extract_project_info
    rw [hc]
  · intro h
    unfold customDescriptions
    rw [h]
    rfl

/-- Witness for C2 at a concrete filesystem whose summary file is even
malformed: the config record is returned whole and its missing
`visualization_descriptions` defaults to empty. -/
theorem C2_config_priority_witness :
    extract_project_info (("N").data)
        ⟨some [], none, some (.ok (defaultProjectInfo (("Config").data))),
         some (.error ())⟩
      = .ok (defaultProjectInfo (("Config").data))
    ∧ customDescriptions (defaultProjectInfo (("Config").data)) = [] := by
  have h := C2_config_priority (("N").data)
    ⟨some [], none, some (.ok (defaultProjectInfo (("Config").data))),
     some (.error ())⟩
    (defaultProjectInfo (("Config").data)) (.error ()) rfl rfl
  exact ⟨h.1, h.2 rfl⟩

/-- C3: the normalized key is the lowercased stem with the characters `_`,
`-`, and space removed (a single filter), and the removal chain gives the
same result for every order of the three characters. -/
theorem C3_normalized_key (s : List Char) (cs : List Char)
    (hperm : cs.Perm [('_' : Char), '-', ' ']) :
    vizKeyData s
      = (pyLower s).filter (fun x => !(decide (x ∈ [('_' : Char), '-', ' '])))
    ∧ removeChain cs (pyLower s) = vizKeyData s := by
  have hv : vizKeyData s = removeChain [('_' : Char), '-', ' '] (pyLower s) := rfl
  constructor
  · rw [hv, removeChain_eq_filter]
  · rw [hv]
    exact removeChain_perm hperm _

/-- Witness for C3: a reversed removal order on `"Water_Supply-2024"` still
yields the claim's example value `"watersupply2024"`. -/
theorem C3_normalized_key_witness :
    (vizKeyData (("Water_Supply-2024").data)
        = (pyLower (("Water_Supply-2024").data)).filter
            (fun x => !(decide (x ∈ [('_' : Char), '-', ' '])))
      ∧ removeChain [(' ' : Char), '-', '_'] (pyLower (("Water_Supply-2024").data))
          = vizKeyData (("Water_Supply-2024").data))
    ∧ vizKeyData (("Water_Supply-2024").data) = ("watersupply2024").data := by
  refine ⟨C3_normalized_key (("Water_Supply-2024").data)
    [(' ' : Char), '-', '_'] (by decide), by decide⟩

/-- C4: the description of an image asset is resolved by exactly this
chain: a custom entry for the normalized key is used verbatim (its title
overriding the derived title); otherwise the first keyword of the fixed
ordered dictionary occurring as a substring of the lowercased stem wins;
with no keyword match, the fixed generic fallback is used. -/
theorem C4_description_resolution (project_folder : List Char)
    (info : ProjectInfo) (p : List Char) :
    (∀ d, lookupB (vizKeyData (splitextStem (basenameOf p)))
        (customDescriptions info) = some d →
      mkVizEntry project_folder info p
        = (vizKeyData (splitextStem (basenameOf p)),
           ⟨d.title, ("../").data ++ pyJoin project_folder (basenameOf p),
            d.description⟩))
    ∧ (lookupB (vizKeyData (splitextStem (basenameOf p)))
        (customDescriptions info) = none →
      mkVizEntry project_folder info p
        = (vizKeyData (splitextStem (basenameOf p)),
           ⟨derivedTitle (splitextStem (basenameOf p)),
            ("../").data ++ pyJoin project_folder (basenameOf p),
            generate_visualization_description (splitextStem (basenameOf p))⟩))
    ∧ (∀ kd, descList.find?
          (fun kd => isInfixB kd.1 (pyLower (splitextStem (basenameOf p))))
          = some kd →
        generate_visualization_description (splitextStem (basenameOf p))
          = kd.2)
    ∧ (descList.find?
          (fun kd => isInfixB kd.1 (pyLower (splitextStem (basenameOf p))))
          = none →
        generate_visualization_description (splitextStem (basenameOf p))
          = defaultVizDesc)
    ∧ descList.map Prod.fst
        = [("snowpack").data, ("reservoir").data, ("deliveries").data,
           ("conservation").data, ("gpcd").data] := by
  refine ⟨?_, ?_, ?_, ?_, rfl⟩
  · intro d hd
    unfold mkVizEntry
    dsimp only
    rw [hd]
  · intro hd
    unfold mkVizEntry
    dsimp only
    rw [hd]
  · intro kd hkd
    unfold generate_visualization_description
    rw [descScan_eq_find, hkd]
  · intro hkd
    unfold generate_visualization_description
    rw [descScan_eq_find, hkd]

/-- Witness for C4 on `reservoir-levels.png` with the default record: no
custom entry, keyword "reservoir" matches, derived title kept. -/
theorem C4_description_resolution_witness :
    mkVizEntry (("p").data) (defaultProjectInfo (("N").data))
        (("p/reservoir-levels.png").data)
      = (("reservoirlevels").data,
         ⟨("Reservoir-Levels").data, ("../p/reservoir-levels.png").data,
          reservoirDesc⟩) := by
  have h := (C4_description_resolution (("p").data)
    (defaultProjectInfo (("N").data)) (("p/reservoir-levels.png").data)).2.1 rfl
  rw [h]
  decide

/-- C6: at the CLI surface (where the spec's FilesystemError is surfaced),
the run reports a missing folder exactly when the project folder does not
exist; when it exists, absence of assets is not an error: zero image
matches yield the empty sorted sequence, zero dashboard matches yield the
`none` sentinel.  (`find_visualizations` and `find_dashboard` are total.) -/
theorem C6_scan_never_errors (argv : List (List Char)) (fs : Fs)
    (project_folder : List Char) (files : List (List Char))
    (hargs : 3 ≤ argv.length) :
    ((pythonMain argv fs = .folderMissing) ↔ fs.folderFiles = none)
    ∧ ((∀ e ∈ imageExts, files.filter (matchesExt e) = []) →
        find_visualizations project_folder files = [])
    ∧ (files.filter matchesDashboard = [] →
        find_dashboard project_folder files = none) := by
  refine ⟨?_, ?_, ?_⟩
  · unfold pythonMain
    rw [if_neg (by omega)]
    cases hf : fs.folderFiles with
    | none => simp
    | some fl => simp
  · intro h
    unfold find_visualizations
    have h5 : ∀ exts : List (List Char), (∀ e ∈ exts, e ∈ imageExts) →
        ((exts.map (fun ext => (files.filter (matchesExt ext)).map
          (fun n => pyJoin project_folder n))).flatten
            : List (List Char)) = [] := by
      intro exts
      induction exts with
      | nil => intro _; rfl
      | cons e es ih =>
        intro he
        rw [List.map_cons, List.flatten_cons, h e (he e (List.mem_cons_self e es)),
          List.map_nil, List.nil_append]
        exact ih (fun x hx => he x (List.mem_cons_of_mem e hx))
    rw [h5 imageExts (fun x hx => hx)]
    rfl
  · intro h
    unfold find_dashboard
    rw [h]
    rfl

/-- Witness for C6: a three-argument invocation on a missing folder reports
the missing folder; an empty existing folder yields no images and the
`none` dashboard sentinel. -/
theorem C6_scan_never_errors_witness :
    pythonMain [("prog").data, ("N").data, ("p").data] ⟨none, none, none, none⟩
        = .folderMissing
    ∧ find_visualizations (("p").data) [] = []
    ∧ find_dashboard (("p").data) [] = none := by
  have h := C6_scan_never_errors [("prog").data, ("N").data, ("p").data]
    ⟨none, none, none, none⟩ (("p").data) [] (by decide)
  exact ⟨h.1.mpr rfl, h.2.1 (by decide), h.2.2 rfl⟩

/-- C7 as stated is false: a keyed visualization entry is produced for
every image asset but not for the dashboard link.  Here a dashboard file is
discovered, yet the visualization-data map of the run is empty. -/
theorem C7_counterexample :
    find_dashboard (("p").data) [("my_dashboard.html").data]
        = some (("p/my_dashboard.html").data)
    ∧ find_visualizations (("p").data) [("my_dashboard.html").data] = []
    ∧ generate_visualization_data (("p").data)
        (find_visualizations (("p").data) [("my_dashboard.html").data])
        (defaultProjectInfo (("N").data)) = [] := by
  refine ⟨rfl, rfl, rfl⟩

/-- C7 amended: the keying step applies only to the discovered image
assets (every key of the visualization map is the normalization of some
image stem), while the discovered dashboard only determines the
`DASHBOARD_LINK` replacement value. -/
theorem C7_keying_scope (project_folder : List Char) (info : ProjectInfo)
    (images : List (List Char)) (k : List Char)
    (hk : k ∈ (generate_visualization_data project_folder images info).map
      Prod.fst) :
    (∃ p ∈ images, k = vizKeyData (splitextStem (basenameOf p)))
    ∧ ∀ (dashboard : Option (List Char))
        (viz_data : List (List Char × VizEntry)),
        lookupB (("DASHBOARD_LINK").data)
            (replacementPairs project_folder info images dashboard viz_data)
          = some (match dashboard with
                  | some d => ("../").data ++ d
                  | none => ("#").data) := by
  constructor
  · rcases gvd_keys_sub project_folder info images [] k hk with h1 | h2
    · exact absurd h1 (by simp)
    · exact h2
  · intro dashboard viz_data
    rfl

/-- Witness for C7's amended statement at one image. -/
theorem C7_keying_scope_witness :
    (∃ p ∈ [("p/Snow_Pack.png").data],
      ("snowpack").data = vizKeyData (splitextStem (basenameOf p)))
    ∧ ∀ (dashboard : Option (List Char))
        (viz_data : List (List Char × VizEntry)),
        lookupB (("DASHBOARD_LINK").data)
            (replacementPairs (("p").data) (defaultProjectInfo (("N").data))
              [("p/Snow_Pack.png").data] dashboard viz_data)
          = some (match dashboard with
                  | some d => ("../").data ++ d
                  | none => ("#").data) :=
  C7_keying_scope (("p").data) (defaultProjectInfo (("N").data))
    [("p/Snow_Pack.png").data] (("snowpack").data) (by decide)

/-- C8: two distinct image paths whose stems normalize to the same key
silently collide: the visualization map holds exactly one entry for that
key, carrying the data of the later path in scan order. -/
theorem C8_last_write_wins (project_folder : List Char) (info : ProjectInfo)
    (f1 f2 : List Char) (_hne : f1 ≠ f2)
    (hk : (mkVizEntry project_folder info f1).1
      = (mkVizEntry project_folder info f2).1) :
    generate_visualization_data project_folder [f1, f2] info
      = [mkVizEntry project_folder info f2] := by
  show dictInsert (mkVizEntry project_folder info f2).1
      (mkVizEntry project_folder info f2).2
      (dictInsert (mkVizEntry project_folder info f1).1
        (mkVizEntry project_folder info f1).2 []) = _
  rw [dictInsert_nil, dictInsert_cons, if_pos hk, hk, Prod.mk.eta]

/-- Witness for C8: `a_b.png` and `ab.png` collide on the key `"ab"`. -/
theorem C8_last_write_wins_witness :
    generate_visualization_data (("p").data)
        [("p/a_b.png").data, ("p/ab.png").data]
        (defaultProjectInfo (("N").data))
      = [mkVizEntry (("p").data) (defaultProjectInfo (("N").data))
          (("p/ab.png").data)] :=
  C8_last_write_wins (("p").data) (defaultProjectInfo (("N").data))
    (("p/a_b.png").data) (("p/ab.png").data) (by decide) (by decide)

/-- C9: the write happens only after the whole document is composed: a run
that fails during generation (missing template, malformed metadata file)
writes nothing, and a successful run writes exactly the one complete
document. -/
theorem C9_no_partial_output (project_name project_folder : List Char)
    (fs : Fs) :
    (∀ e, generate_html project_name project_folder fs = .error e →
        save_project_page project_name project_folder fs = ([], .error e))
    ∧ (∀ h, generate_html project_name project_folder fs = .ok h →
        save_project_page project_name project_folder fs
          = ([(output_path project_name, h)],
             .ok (output_path project_name))) := by
  constructor <;> intro x hx <;> unfold save_project_page <;> rw [hx]

/-- Witness for C9: with the template file missing, generation fails and
nothing is written. -/
theorem C9_no_partial_output_witness :
    save_project_page (("N").data) (("p").data) ⟨some [], none, none, none⟩
      = ([], .error .templateMissing) :=
  (C9_no_partial_output (("N").data) (("p").data)
    ⟨some [], none, none, none⟩).1 .templateMissing rfl

/-- C10: each visualization card references, via its onclick key, a key
present in the visualization-data map: the card's key fragment occurs in
the rendered VISUALIZATIONS html, the two key computations coincide, and
the key is among the map's keys (also under collisions). -/
theorem C10_card_key_in_map (project_folder : List Char)
    (info : ProjectInfo) (images : List (List Char)) (p : List Char)
    (hp : p ∈ images) :
    isInfixB (onclickFrag (vizKeyCard (splitextStem (basenameOf p))))
        (generate_visualizations_html project_folder images) = true
    ∧ vizKeyCard (splitextStem (basenameOf p))
        = vizKeyData (splitextStem (basenameOf p))
    ∧ vizKeyCard (splitextStem (basenameOf p))
        ∈ (generate_visualization_data project_folder images info).map
            Prod.fst := by
  refine ⟨?_, rfl, ?_⟩
  · exact isInfixB_trans (onclickFrag_infix_card project_folder p)
      (card_infix_gvh project_folder images p hp)
  · show vizKeyData (splitextStem (basenameOf p)) ∈ _
    exact gvd_keys_of_mem project_folder info images [] p hp

/-! ### Lemmas for the template substitution theory -/

theorem flattenSegs_nil : flattenSegs [] = [] := rfl

theorem flattenSegs_cons (sg : Seg) (t : List Seg) :
    flattenSegs (sg :: t) = segStr sg ++ flattenSegs t := by
  unfold flattenSegs
  rw [List.map_cons, List.flatten_cons]

theorem lastC_cons (c : Char) (xs : List Char) :
    lastC (c :: xs) = match xs with | [] => some c | _ :: _ => lastC xs := by
  cases xs <;> rfl

theorem isInfixB_cons_eq (p : List Char) (c : Char) (cs : List Char) :
    isInfixB p (c :: cs) = (isPrefixB p (c :: cs) || isInfixB p cs) := rfl

theorem wfPiece_iff (s : List Char) :
    wfPiece s = true
      ↔ isInfixB [lbrace, lbrace] s = false ∧ lastC s ≠ some lbrace := by
  unfold wfPiece
  rw [Bool.and_eq_true]
  constructor
  · rintro ⟨h1, h2⟩
    refine ⟨by simpa using h1, ?_⟩
    simpa using h2
  · rintro ⟨h1, h2⟩
    exact ⟨by simpa using h1, by simpa using h2⟩

theorem wfPiece_tail {c : Char} {w : List Char}
    (h : wfPiece (c :: w) = true) : wfPiece w = true := by
  rcases (wfPiece_iff _).mp h with ⟨h1, h2⟩
  rw [isInfixB_cons_eq] at h1
  rcases Bool.or_eq_false_iff.mp h1 with ⟨_, h1b⟩
  cases w with
  | nil => decide
  | cons d w' =>
    apply (wfPiece_iff _).mpr
    refine ⟨h1b, ?_⟩
    rw [lastC_cons] at h2
    exact h2

theorem braceFree_not_lb {m : List Char} (h : braceFree m = true) :
    lbrace ∉ m := by
  intro hmem
  have h2 := List.all_eq_true.mp h lbrace hmem
  simp at h2

theorem braceFree_not_rb {m : List Char} (h : braceFree m = true) :
    rbrace ∉ m := by
  intro hmem
  have h2 := List.all_eq_true.mp h rbrace hmem
  simp at h2

theorem lastC_mem : ∀ {s : List Char} {c : Char}, lastC s = some c → c ∈ s := by
  intro s
  induction s with
  | nil => intro c h; exact absurd h (by simp [lastC])
  | cons x xs ih =>
    intro c h
    cases xs with
    | nil =>
      simp [lastC] at h
      simp [h]
    | cons y t =>
      rw [lastC_cons] at h
      exact List.mem_cons_of_mem x (ih h)

theorem infix_head_mem {a : Char} {p s : List Char}
    (h : isInfixB (a :: p) s = true) : a ∈ s := by
  rcases (isInfixB_iff _ _).mp h with ⟨x, y, rfl⟩
  simp

theorem wfPiece_of_not_lbrace (s : List Char) (h : lbrace ∉ s) :
    wfPiece s = true := by
  apply (wfPiece_iff _).mpr
  constructor
  · cases hb : isInfixB [lbrace, lbrace] s with
    | false => rfl
    | true => exact absurd (infix_head_mem hb) h
  · intro hc
    exact h (lastC_mem hc)

theorem pyReplace_piece_skip {pat : List Char} (pt : List Char)
    (hpat : pat = lbrace :: lbrace :: pt) :
    ∀ (w : List Char), wfPiece w = true → ∀ (b rep : List Char),
      pyReplace (w ++ b) pat rep = w ++ pyReplace b pat rep := by
  intro w
  induction w with
  | nil => intro _ b rep; rfl
  | cons c w' ih =>
    intro hw b rep
    rcases (wfPiece_iff _).mp hw with ⟨h1, h2⟩
    have hpre : isPrefixB pat (c :: (w' ++ b)) = false := by
      subst hpat
      show ((lbrace == c) && isPrefixB (lbrace :: pt) (w' ++ b)) = false
      by_cases hc : lbrace = c
      · subst hc
        cases w' with
        | nil =>
          exfalso
          exact h2 (by rw [lastC_cons])
        | cons d w'' =>
          by_cases hd : lbrace = d
          · exfalso
            subst hd
            have hin : isInfixB [lbrace, lbrace]
                (lbrace :: lbrace :: w'') = true :=
              (isInfixB_iff _ _).mpr ⟨[], w'', rfl⟩
            exact Bool.noConfusion (h1.symm.trans hin)
          · show ((lbrace == lbrace)
              && ((lbrace == d) && isPrefixB pt (w'' ++ b))) = false
            rw [beq_eq_false_iff_ne.mpr hd]
            simp
      · rw [beq_eq_false_iff_ne.mpr hc]
        simp
    rw [show (c :: w') ++ b = c :: (w' ++ b) from rfl,
      pyReplace_cons_neg hpre, ih (wfPiece_tail hw) b rep]
    rfl

theorem band_true_elim {a b : Bool} (h : (a && b) = true) :
    a = true ∧ b = true := by
  rw [Bool.and_eq_true] at h
  exact h

theorem append_sep_inj {x : Char} :
    ∀ (n m u w : List Char), x ∉ n → x ∉ m →
      isPrefixB (n ++ x :: u) (m ++ x :: w) = true → n = m := by
  intro n
  induction n with
  | nil =>
    intro m u w _ hm h
    cases m with
    | nil => rfl
    | cons d m' =>
      exfalso
      have h' : ((x == d) && isPrefixB u (m' ++ x :: w)) = true := h
      have hxd : x = d := beq_iff_eq.mp (band_true_elim h').1
      exact hm (by rw [hxd]; exact List.mem_cons_self d m')
  | cons a n' ih =>
    intro m u w hn hm h
    cases m with
    | nil =>
      exfalso
      have h' : ((a == x) && isPrefixB (n' ++ x :: u) w) = true := h
      have hax : a = x := beq_iff_eq.mp (band_true_elim h').1
      exact hn (by rw [← hax]; exact List.mem_cons_self a n')
    | cons d m' =>
      have h' : ((a == d) && isPrefixB (n' ++ x :: u) (m' ++ x :: w)) = true := h
      have had : a = d := beq_iff_eq.mp (band_true_elim h').1
      have hrest := (band_true_elim h').2
      have hn' : x ∉ n' := fun hx => hn (List.mem_cons_of_mem a hx)
      have hm' : x ∉ m' := fun hx => hm (List.mem_cons_of_mem d hx)
      rw [had, ih m' u w hn' hm' hrest]

theorem tok_not_prefix {n m : List Char} (hn : braceFree n = true)
    (hm : braceFree m = true) (hne : n ≠ m) (rest : List Char) :
    isPrefixB (tok n) (tok m ++ rest) = true → False := by
  intro h
  have h' : isPrefixB (n ++ rbrace :: [rbrace])
      (m ++ rbrace :: (rbrace :: rest)) = true := by
    have h0 : isPrefixB (tok n) (tok m ++ rest)
        = ((lbrace == lbrace) && ((lbrace == lbrace)
            && isPrefixB (n ++ [rbrace, rbrace])
                ((m ++ [rbrace, rbrace]) ++ rest))) := rfl
    rw [h0] at h
    have h1 := (band_true_elim ((band_true_elim h).2)).2
    have h2 : (m ++ [rbrace, rbrace]) ++ rest
        = m ++ rbrace :: (rbrace :: rest) := by
      simp
    rw [h2] at h1
    exact h1
  exact hne (append_sep_inj n m [rbrace] (rbrace :: rest)
    (braceFree_not_rb hn) (braceFree_not_rb hm) h')

theorem pyReplace_tok_self (n v rest : List Char) :
    pyReplace (tok n ++ rest) (tok n) v = v ++ pyReplace rest (tok n) v := by
  have hc : tok n ++ rest
      = lbrace :: ((lbrace :: (n ++ [rbrace, rbrace])) ++ rest) := by
    simp [tok]
  rw [hc]
  rw [pyReplace_cons_pos (by simp [tok])
    (by rw [← hc]; exact isPrefixB_append_self _ _)]
  rw [← hc, List.drop_left]

theorem prefix_at_pos1 {n m : List Char} (hm : braceFree m = true)
    (rest : List Char) :
    isPrefixB (tok n) (lbrace :: ((m ++ [rbrace, rbrace]) ++ rest))
      = false := by
  cases m with
  | nil =>
    show ((lbrace == lbrace)
      && ((lbrace == rbrace) && isPrefixB (n ++ [rbrace, rbrace])
            ([rbrace] ++ rest))) = false
    rw [show (lbrace == rbrace) = false from by decide]
    simp
  | cons d m' =>
    have hd : lbrace ≠ d := by
      intro hx
      exact braceFree_not_lb hm
        (by rw [← hx]; exact List.mem_cons_self lbrace m')
    show ((lbrace == lbrace)
      && ((lbrace == d) && isPrefixB (n ++ [rbrace, rbrace])
            ((m' ++ [rbrace, rbrace]) ++ rest))) = false
    rw [beq_eq_false_iff_ne.mpr hd]
    simp

theorem pyReplace_tok_other {n m : List Char} (hn : braceFree n = true)
    (hm : braceFree m = true) (hne : n ≠ m) (v rest : List Char) :
    pyReplace (tok m ++ rest) (tok n) v
      = tok m ++ pyReplace rest (tok n) v := by
  have h0 : tok m ++ rest
      = lbrace :: ((lbrace :: (m ++ [rbrace, rbrace])) ++ rest) := by
    simp [tok]
  have hpre0 : isPrefixB (tok n)
      (lbrace :: ((lbrace :: (m ++ [rbrace, rbrace])) ++ rest)) = false := by
    rw [← h0]
    cases hb : isPrefixB (tok n) (tok m ++ rest) with
    | false => rfl
    | true => exact absurd hb (fun hb => tok_not_prefix hn hm hne rest hb)
  have h1 : (lbrace :: (m ++ [rbrace, rbrace])) ++ rest
      = lbrace :: ((m ++ [rbrace, rbrace]) ++ rest) := rfl
  have hw : wfPiece (m ++ [rbrace, rbrace]) = true := by
    apply wfPiece_of_not_lbrace
    intro hmem
    rcases List.mem_append.mp hmem with hmem1 | hmem2
    · exact braceFree_not_lb hm hmem1
    · rcases List.mem_cons.mp hmem2 with h | h
      · exact absurd h (by decide)
      · rcases List.mem_cons.mp h with h | h
        · exact absurd h (by decide)
        · exact absurd h (by simp)
  rw [h0, pyReplace_cons_neg hpre0, h1,
    pyReplace_cons_neg (prefix_at_pos1 hm rest),
    pyReplace_piece_skip (n ++ [rbrace, rbrace])
      (show tok n = lbrace :: lbrace :: (n ++ [rbrace, rbrace]) from rfl)
      _ hw rest v]
  simp [tok]

theorem pyReplace_flatten {n : List Char} (hn : braceFree n = true)
    (v : List Char) :
    ∀ segs : List Seg, (∀ sg ∈ segs, wfSeg sg = true) →
      pyReplace (flattenSegs segs) (tok n) v
        = flattenSegs (segs.map (substOne n v)) := by
  intro segs
  induction segs with
  | nil => intro _; rfl
  | cons sg t ih =>
    intro hwf
    have hsg := hwf sg (List.mem_cons_self _ _)
    have ht : ∀ x ∈ t, wfSeg x = true :=
      fun x hx => hwf x (List.mem_cons_of_mem _ hx)
    cases sg with
    | lit s =>
      rw [flattenSegs_cons, List.map_cons, flattenSegs_cons,
        show segStr (Seg.lit s) = s from rfl,
        show substOne n v (Seg.lit s) = Seg.lit s from rfl,
        show segStr (Seg.lit s) = s from rfl,
        pyReplace_piece_skip (n ++ [rbrace, rbrace])
          (show tok n = lbrace :: lbrace :: (n ++ [rbrace, rbrace]) from rfl)
          s hsg (flattenSegs t) v,
        ih ht]
    | ph m =>
      have hmb : braceFree m = true := hsg
      by_cases hnm : m = n
      · subst hnm
        rw [flattenSegs_cons, List.map_cons, flattenSegs_cons,
          show segStr (Seg.ph m) = tok m from rfl,
          show substOne m v (Seg.ph m) = Seg.lit v from by simp [substOne],
          show segStr (Seg.lit v) = v from rfl,
          pyReplace_tok_self m v (flattenSegs t), ih ht]
      · rw [flattenSegs_cons, List.map_cons, flattenSegs_cons,
          show segStr (Seg.ph m) = tok m from rfl,
          show substOne n v (Seg.ph m) = Seg.ph m from by simp [substOne, hnm],
          show segStr (Seg.ph m) = tok m from rfl,
          pyReplace_tok_other hn hmb (fun h => hnm h.symm) v
            (flattenSegs t), ih ht]

theorem bor_true_elim {a b : Bool} (h : (a || b) = true) :
    a = true ∨ b = true := by
  cases a with
  | true => exact Or.inl rfl
  | false => exact Or.inr (by simpa using h)

theorem composeLoop_nil (t : List Char) : composeLoop [] t = t := rfl

theorem composeLoop_cons (pv : List Char × List Char)
    (ps : List (List Char × List Char)) (t : List Char) :
    composeLoop (pv :: ps) t
      = composeLoop ps (pyReplace t (tok pv.1) pv.2) := rfl

theorem substList_nil (segs : List Seg) : substList [] segs = segs := rfl

theorem substList_cons (pv : List Char × List Char)
    (ps : List (List Char × List Char)) (segs : List Seg) :
    substList (pv :: ps) segs
      = substList ps (segs.map (substOne pv.1 pv.2)) := rfl

theorem wfSeg_substOne {n v : List Char} (hv : wfPiece v = true) :
    ∀ sg, wfSeg sg = true → wfSeg (substOne n v sg) = true := by
  intro sg h
  cases sg with
  | lit s => exact h
  | ph m =>
    by_cases hm : m = n
    · rw [show substOne n v (Seg.ph m) = Seg.lit v from by simp [substOne, hm]]
      exact hv
    · rw [show substOne n v (Seg.ph m) = Seg.ph m from by simp [substOne, hm]]
      exact h

theorem composeLoop_flatten :
    ∀ (pairs : List (List Char × List Char)) (segs : List Seg),
      (∀ pv ∈ pairs, braceFree pv.1 = true ∧ wfPiece pv.2 = true) →
      (∀ sg ∈ segs, wfSeg sg = true) →
      composeLoop pairs (flattenSegs segs)
        = flattenSegs (substList pairs segs) := by
  intro pairs
  induction pairs with
  | nil => intro segs _ _; rfl
  | cons pv ps ih =>
    intro segs hp hs
    have hpv := hp pv (List.mem_cons_self _ _)
    have hs' : ∀ sg ∈ segs.map (substOne pv.1 pv.2), wfSeg sg = true := by
      intro sg hsg
      rcases List.mem_map.mp hsg with ⟨sg0, h0, rfl⟩
      exact wfSeg_substOne hpv.2 sg0 (hs sg0 h0)
    rw [composeLoop_cons, pyReplace_flatten hpv.1 pv.2 segs hs,
      ih _ (fun q hq => hp q (List.mem_cons_of_mem _ hq)) hs',
      substList_cons]

theorem finalSub_nil (sg : Seg) : finalSub [] sg = sg := by
  cases sg <;> rfl

theorem finalSub_ph (pairs : List (List Char × List Char)) (m : List Char) :
    finalSub pairs (Seg.ph m)
      = (match lookupB m pairs with
         | some v => Seg.lit v
         | none => Seg.ph m) := rfl

theorem finalSub_step (a b : List Char)
    (ps : List (List Char × List Char)) (sg : Seg) :
    finalSub ps (substOne a b sg) = finalSub ((a, b) :: ps) sg := by
  cases sg with
  | lit s => rfl
  | ph m =>
    by_cases hm : m = a
    · have h1 : substOne a b (Seg.ph m) = Seg.lit b := by simp [substOne, hm]
      have h2 : lookupB m ((a, b) :: ps) = some b := by
        rw [lookupB_cons, if_pos hm]
      rw [h1, finalSub_ph, h2]
      rfl
    · have h1 : substOne a b (Seg.ph m) = Seg.ph m := by simp [substOne, hm]
      have h2 : lookupB m ((a, b) :: ps) = lookupB m ps := by
        rw [lookupB_cons, if_neg hm]
      rw [h1, finalSub_ph, finalSub_ph, h2]

theorem substList_eq :
    ∀ (pairs : List (List Char × List Char)) (segs : List Seg),
      substList pairs segs = segs.map (finalSub pairs) := by
  intro pairs
  induction pairs with
  | nil =>
    intro segs
    rw [substList_nil]
    have h : segs.map (finalSub []) = segs.map id :=
      List.map_congr_left (fun sg _ => finalSub_nil sg)
    rw [h, List.map_id]
  | cons pv ps ih =>
    intro segs
    obtain ⟨a, b⟩ := pv
    rw [substList_cons, ih, List.map_map]
    exact List.map_congr_left (fun sg _ => finalSub_step a b ps sg)

theorem lookupB_mem {α : Type} {k : List Char} {v : α} :
    ∀ {d : List (List Char × α)}, lookupB k d = some v → (k, v) ∈ d := by
  intro d
  induction d with
  | nil => intro h; exact absurd h (by rw [lookupB_nil]; simp)
  | cons kv t ih =>
    obtain ⟨a, b⟩ := kv
    intro h
    rw [lookupB_cons] at h
    by_cases hk : k = a
    · rw [if_pos hk] at h
      injection h with h'
      subst h'
      subst hk
      exact List.mem_cons_self _ _
    · rw [if_neg hk] at h
      exact List.mem_cons_of_mem _ (ih h)

theorem lookupB_perm {α : Type} :
    ∀ {l₁ l₂ : List (List Char × α)}, l₁.Perm l₂ →
      (l₂.map Prod.fst).Nodup → ∀ k, lookupB k l₁ = lookupB k l₂ := by
  intro l₁ l₂ h
  induction h with
  | nil => intro _ _; rfl
  | cons x h ih =>
    intro hnd k
    obtain ⟨a, b⟩ := x
    rw [List.map_cons] at hnd
    have hnd' := (List.nodup_cons.mp hnd).2
    rw [lookupB_cons, lookupB_cons]
    by_cases hk : k = a
    · rw [if_pos hk, if_pos hk]
    · rw [if_neg hk, if_neg hk]
      exact ih hnd' k
  | swap x y t =>
    intro hnd k
    obtain ⟨a, b⟩ := x
    obtain ⟨c, d⟩ := y
    rw [List.map_cons, List.map_cons] at hnd
    have hac : a ≠ c := by
      have h0 := (List.nodup_cons.mp hnd).1
      intro hx
      exact h0 (by rw [hx]; exact List.mem_cons_self c _)
    rw [lookupB_cons, lookupB_cons, lookupB_cons, lookupB_cons]
    by_cases h1 : k = c
    · by_cases h2 : k = a
      · exact absurd (h2.symm.trans h1) hac
      · rw [if_pos h1, if_neg h2, if_pos h1]
    · by_cases h2 : k = a
      · rw [if_neg h1, if_pos h2, if_pos h2]
      · rw [if_neg h1, if_neg h2, if_neg h2, if_neg h1]
  | trans h1 h2 ih1 ih2 =>
    intro hnd k
    have hmid := (h2.map Prod.fst).nodup_iff.mpr hnd
    exact (ih1 hmid k).trans (ih2 hnd k)

theorem finalSub_perm {l pairs : List (List Char × List Char)}
    (h : l.Perm pairs) (hnd : (pairs.map Prod.fst).Nodup) (sg : Seg) :
    finalSub l sg = finalSub pairs sg := by
  cases sg with
  | lit s => rfl
  | ph m =>
    rw [finalSub_ph, finalSub_ph, lookupB_perm h hnd m]

theorem lastC_cons_cons (c z : Char) (zs : List Char) :
    lastC (c :: z :: zs) = lastC (z :: zs) := rfl

theorem lastC_append : ∀ (a b : List Char), b ≠ [] →
    lastC (a ++ b) = lastC b := by
  intro a
  induction a with
  | nil => intro b _; rfl
  | cons c a' ih =>
    intro b hb
    cases hab : a' ++ b with
    | nil => exact absurd (List.append_eq_nil.mp hab).2 hb
    | cons z zs =>
      rw [show (c :: a') ++ b = c :: (a' ++ b) from rfl, hab,
        lastC_cons_cons, ← hab]
      exact ih b hb

theorem infix_pair_append {x y : Char} :
    ∀ (a b : List Char), isInfixB [x, y] (a ++ b) = true →
      isInfixB [x, y] a = true ∨ isInfixB [x, y] b = true
        ∨ (lastC a = some x ∧ b.head? = some y) := by
  intro a
  induction a with
  | nil => intro b h; exact Or.inr (Or.inl h)
  | cons c a' ih =>
    intro b h
    rw [show (c :: a') ++ b = c :: (a' ++ b) from rfl, isInfixB_cons_eq] at h
    rcases bor_true_elim h with h1 | h2
    · have h1' : ((x == c) && isPrefixB [y] (a' ++ b)) = true := h1
      have hxc : x = c := beq_iff_eq.mp (band_true_elim h1').1
      have h1b := (band_true_elim h1').2
      cases a' with
      | nil =>
        cases b with
        | nil => exact absurd h1b (by simp [isPrefixB])
        | cons e es =>
          have h1b' : ((y == e) && isPrefixB ([] : List Char) es) = true := h1b
          have hye : y = e := beq_iff_eq.mp (band_true_elim h1b').1
          right; right
          constructor
          · rw [lastC_cons, hxc]
          · rw [hye]
            rfl
      | cons d a'' =>
        have h1b' : ((y == d) && isPrefixB ([] : List Char) (a'' ++ b)) = true :=
          h1b
        have hyd : y = d := beq_iff_eq.mp (band_true_elim h1b').1
        left
        rw [isInfixB_cons_eq]
        have hpre : isPrefixB [x, y] (c :: d :: a'') = true := by
          show ((x == c) && ((y == d) && isPrefixB ([] : List Char) a'')) = true
          rw [hxc, hyd]
          simp [isPrefixB]
        rw [hpre]
        rfl
    · rcases ih b h2 with h3 | h4 | ⟨h5a, h5b⟩
      · left
        rw [isInfixB_cons_eq, h3]
        simp
      · exact Or.inr (Or.inl h4)
      · right; right
        refine ⟨?_, h5b⟩
        cases ha : a' with
        | nil =>
          rw [ha] at h5a
          exact absurd h5a (by simp [lastC])
        | cons z zs =>
          rw [lastC_cons_cons, ← ha]
          exact h5a

theorem wfPiece_append {a b : List Char} (ha : wfPiece a = true)
    (hb : wfPiece b = true) : wfPiece (a ++ b) = true := by
  rcases (wfPiece_iff a).mp ha with ⟨ha1, ha2⟩
  rcases (wfPiece_iff b).mp hb with ⟨hb1, hb2⟩
  apply (wfPiece_iff _).mpr
  constructor
  · cases hc : isInfixB [lbrace, lbrace] (a ++ b) with
    | false => rfl
    | true =>
      exfalso
      rcases infix_pair_append a b hc with h | h | ⟨h1, _⟩
      · exact Bool.noConfusion (ha1.symm.trans h)
      · exact Bool.noConfusion (hb1.symm.trans h)
      · exact ha2 h1
  · cases hb0 : b with
    | nil =>
      subst hb0
      rw [List.append_nil]
      exact ha2
    | cons z zs =>
      rw [← hb0, lastC_append a b (by rw [hb0]; simp)]
      exact hb2

theorem wfPiece_flattenSegs :
    ∀ segs : List Seg,
      (∀ sg ∈ segs, ∃ s, sg = Seg.lit s ∧ wfPiece s = true) →
      wfPiece (flattenSegs segs) = true := by
  intro segs
  induction segs with
  | nil => intro _; decide
  | cons sg t ih =>
    intro h
    rcases h sg (List.mem_cons_self _ _) with ⟨s, rfl, hs⟩
    rw [flattenSegs_cons, show segStr (Seg.lit s) = s from rfl]
    exact wfPiece_append hs (ih (fun x hx => h x (List.mem_cons_of_mem _ hx)))

theorem infix_of_prefix_infix {p q s : List Char}
    (h1 : isPrefixB p q = true) (h2 : isInfixB q s = true) :
    isInfixB p s = true := by
  rcases (isPrefixB_iff _ _).mp h1 with ⟨r, rfl⟩
  rcases (isInfixB_iff _ _).mp h2 with ⟨x, y, rfl⟩
  exact (isInfixB_iff _ _).mpr ⟨x, r ++ y, by simp⟩

theorem tok_no_infix_of_wfPiece {s : List Char} (h : wfPiece s = true)
    (n : List Char) : isInfixB (tok n) s = false := by
  cases hb : isInfixB (tok n) s with
  | false => rfl
  | true =>
    exfalso
    have hpre : isPrefixB [lbrace, lbrace] (tok n) = true := by
      show ((lbrace == lbrace)
        && ((lbrace == lbrace)
          && isPrefixB ([] : List Char) (n ++ [rbrace, rbrace]))) = true
      simp [isPrefixB]
    have hin := infix_of_prefix_infix hpre hb
    rcases (wfPiece_iff s).mp h with ⟨h1, _⟩
    exact Bool.noConfusion (h1.symm.trans hin)

theorem replacementPairs_keys (project_folder : List Char)
    (info : ProjectInfo) (images : List (List Char))
    (dashboard : Option (List Char))
    (viz_data : List (List Char × VizEntry)) :
    (replacementPairs project_folder info images dashboard viz_data).map
      Prod.fst = placeholderNames := rfl

theorem replacementPairs_keys_braceFree (project_folder : List Char)
    (info : ProjectInfo) (images : List (List Char))
    (dashboard : Option (List Char))
    (viz_data : List (List Char × VizEntry)) :
    ∀ pv ∈ replacementPairs project_folder info images dashboard viz_data,
      braceFree pv.1 = true := by
  intro pv hpv
  have h1 : pv.1 ∈ placeholderNames := by
    rw [← replacementPairs_keys project_folder info images dashboard viz_data]
    exact List.mem_map_of_mem Prod.fst hpv
  have h2 : ∀ m ∈ placeholderNames, braceFree m = true := by decide
  exact h2 pv.1 h1

theorem lookupB_placeholder_isSome {m : List Char}
    (hm : m ∈ placeholderNames) (project_folder : List Char)
    (info : ProjectInfo) (images : List (List Char))
    (dashboard : Option (List Char))
    (viz_data : List (List Char × VizEntry)) :
    (lookupB m
      (replacementPairs project_folder info images dashboard viz_data)).isSome
      = true := by
  simp only [placeholderNames, List.mem_cons, List.not_mem_nil, or_false] at hm
  rcases hm with rfl | rfl | rfl | rfl | rfl | rfl | rfl | rfl | rfl | rfl
    | rfl | rfl | rfl | rfl | rfl <;> rfl

/-- C1: on a well-formed template (literal stretches and rendered values
with no nested or self-referencing placeholder material: no two adjacent
opening braces and no trailing opening brace), the substitution loop of
`generate_html`, run over the 15 replacement pairs in any order `l`,
replaces every occurrence of each recognized placeholder with its rendered
value (the result is the segment-wise substitution, independent of the
order), and no literal placeholder token — of any name — remains in the
output. -/
theorem C1_total_substitution (project_folder : List Char)
    (info : ProjectInfo) (images : List (List Char))
    (dashboard : Option (List Char))
    (viz_data : List (List Char × VizEntry)) (segs : List Seg)
    (l : List (List Char × List Char))
    (hseg : ∀ sg ∈ segs, wfSeg sg = true)
    (hnamed : ∀ sg ∈ segs, phNamed sg = true)
    (hvals : ∀ pv ∈ replacementPairs project_folder info images dashboard
      viz_data, wfPiece pv.2 = true)
    (hperm : l.Perm
      (replacementPairs project_folder info images dashboard viz_data)) :
    composeLoop l (flattenSegs segs)
      = flattenSegs (segs.map (finalSub
          (replacementPairs project_folder info images dashboard viz_data)))
    ∧ ∀ m, isInfixB (tok m) (composeLoop l (flattenSegs segs)) = false := by
  have hnd : ((replacementPairs project_folder info images dashboard
      viz_data).map Prod.fst).Nodup := by
    rw [replacementPairs_keys]
    decide
  have hl : ∀ pv ∈ l, braceFree pv.1 = true ∧ wfPiece pv.2 = true := by
    intro pv hpv
    have hpv' := hperm.mem_iff.mp hpv
    exact ⟨replacementPairs_keys_braceFree project_folder info images
      dashboard viz_data pv hpv', hvals pv hpv'⟩
  have hmain : composeLoop l (flattenSegs segs)
      = flattenSegs (segs.map (finalSub
          (replacementPairs project_folder info images dashboard
            viz_data))) := by
    rw [composeLoop_flatten l segs hl hseg, substList_eq l segs,
      List.map_congr_left (fun sg _ => finalSub_perm hperm hnd sg)]
  refine ⟨hmain, ?_⟩
  intro m
  rw [hmain]
  apply tok_no_infix_of_wfPiece
  apply wfPiece_flattenSegs
  intro sg hsg
  rcases List.mem_map.mp hsg with ⟨sg0, h0, rfl⟩
  cases sg0 with
  | lit s => exact ⟨s, rfl, hseg _ h0⟩
  | ph m' =>
    have hm' : m' ∈ placeholderNames := by
      have hph := hnamed _ h0
      have hel : placeholderNames.elem m' = true := hph
      exact (List.elem_iff).mp hel
    have hsome := lookupB_placeholder_isSome hm' project_folder info images
      dashboard viz_data
    obtain ⟨v, hv⟩ := Option.isSome_iff_exists.mp hsome
    refine ⟨v, ?_, ?_⟩
    · rw [finalSub_ph, hv]
    · exact hvals (m', v) (lookupB_mem hv)

/-- Witness for C1: the composition step on a small concrete template and
record, with the replacement list in its given order. -/
theorem C1_total_substitution_witness :
    composeLoop (replacementPairs (("p").data) tinyInfo [] none [])
        (flattenSegs tinySegs)
      = flattenSegs (tinySegs.map (finalSub
          (replacementPairs (("p").data) tinyInfo [] none [])))
    ∧ ∀ m, isInfixB (tok m)
        (composeLoop (replacementPairs (("p").data) tinyInfo [] none [])
          (flattenSegs tinySegs)) = false :=
  C1_total_substitution (("p").data) tinyInfo [] none [] tinySegs
    (replacementPairs (("p").data) tinyInfo [] none [])
    (by decide) (by decide) (by decide) (List.Perm.refl _)

theorem seg_infix_flattenSegs {sg : Seg} {segs : List Seg}
    (h : sg ∈ segs) :
    isInfixB (segStr sg) (flattenSegs segs) = true := by
  rcases List.append_of_mem h with ⟨s, t, rfl⟩
  unfold flattenSegs
  rw [List.map_append, List.map_cons, List.flatten_append, List.flatten_cons]
  apply isInfixB_append_left
  exact isInfixB_append_right (isInfixB_refl _) _

/-- C5 as stated is false on one point: the stem of `Snow_Pack.png` keeps
its underscore, so the keyword `"snowpack"` does not occur in the
lowercased stem `"snow_pack"`, and the entry gets the generic fallback
description instead of the keyword-matched one. -/
theorem C5_counterexample :
    (lookupB (("snowpack").data)
        (generate_visualization_data c5folder
          (find_visualizations c5folder c5files)
          (defaultProjectInfo c5name))).map VizEntry.description
      = some defaultVizDesc
    ∧ defaultVizDesc ≠ snowpackDesc := by
  exact ⟨rfl, by decide⟩

/-- C5 amended: in the scenario (folder with exactly `Snow_Pack.png` and
`reservoir-levels.png`, no config, no summary, no dashboard) the default
record is used; the visualization map holds the keys `"snowpack"` (with
the generic fallback description, since the keyword does not occur in the
stem `"snow_pack"`) and `"reservoirlevels"` (keyword "reservoir" matched);
the output is written, whole, to
`website/water-conservation-analysis-project.html`; the document contains
the two visualization cards adjacent in filename-sort order and the
literal `#` in place of the dashboard link. -/
theorem C5_end_to_end (segs : List Seg)
    (hseg : ∀ sg ∈ segs, wfSeg sg = true)
    (hviz : Seg.ph (("VISUALIZATIONS").data) ∈ segs)
    (hdash : Seg.ph (("DASHBOARD_LINK").data) ∈ segs) :
    ∃ html,
      generate_html c5name c5folder (c5fs (flattenSegs segs)) = .ok html
      ∧ save_project_page c5name c5folder (c5fs (flattenSegs segs))
          = ([(("website/water-conservation-analysis-project.html").data,
               html)],
             .ok (("website/water-conservation-analysis-project.html").data))
      ∧ extract_project_info c5name (c5fs (flattenSegs segs))
          = .ok (defaultProjectInfo c5name)
      ∧ find_dashboard c5folder c5files = none
      ∧ generate_visualization_data c5folder
            (find_visualizations c5folder c5files)
            (defaultProjectInfo c5name)
          = [(("snowpack").data,
              ⟨("Snow Pack").data,
               ("../water-conservation-analysis/Snow_Pack.png").data,
               defaultVizDesc⟩),
             (("reservoirlevels").data,
              ⟨("Reservoir-Levels").data,
               ("../water-conservation-analysis/reservoir-levels.png").data,
               reservoirDesc⟩)]
      ∧ isInfixB
          (vizCardHtml c5folder
              (("water-conservation-analysis/Snow_Pack.png").data)
            ++ vizCardHtml c5folder
              (("water-conservation-analysis/reservoir-levels.png").data))
          html = true
      ∧ isInfixB (("#").data) html = true := by
  refine ⟨composeLoop
    (replacementPairs c5folder (defaultProjectInfo c5name)
      (find_visualizations c5folder c5files)
      (find_dashboard c5folder c5files)
      (generate_visualization_data c5folder
        (find_visualizations c5folder c5files)
        (defaultProjectInfo c5name)))
    (flattenSegs segs), rfl, ?_, rfl, rfl, by decide, ?_, ?_⟩
  · rfl
  all_goals
    have hpairs : ∀ pv ∈ replacementPairs c5folder (defaultProjectInfo c5name)
        (find_visualizations c5folder c5files)
        (find_dashboard c5folder c5files)
        (generate_visualization_data c5folder
          (find_visualizations c5folder c5files)
          (defaultProjectInfo c5name)),
        braceFree pv.1 = true ∧ wfPiece pv.2 = true := by
      intro pv hpv
      refine ⟨replacementPairs_keys_braceFree _ _ _ _ _ pv hpv, ?_⟩
      revert hpv
      revert pv
      decide
    have hmain := composeLoop_flatten _ segs hpairs hseg
    rw [hmain, substList_eq]
  · -- the two adjacent cards
    have hlook : lookupB (("VISUALIZATIONS").data)
        (replacementPairs c5folder (defaultProjectInfo c5name)
          (find_visualizations c5folder c5files)
          (find_dashboard c5folder c5files)
          (generate_visualization_data c5folder
            (find_visualizations c5folder c5files)
            (defaultProjectInfo c5name)))
        = some (generate_visualizations_html c5folder
            (find_visualizations c5folder c5files)) := rfl
    have hmem : Seg.lit (generate_visualizations_html c5folder
        (find_visualizations c5folder c5files))
        ∈ segs.map (finalSub (replacementPairs c5folder
          (defaultProjectInfo c5name)
          (find_visualizations c5folder c5files)
          (find_dashboard c5folder c5files)
          (generate_visualization_data c5folder
            (find_visualizations c5folder c5files)
            (defaultProjectInfo c5name)))) := by
      have h1 := List.mem_map_of_mem (finalSub (replacementPairs c5folder
        (defaultProjectInfo c5name)
        (find_visualizations c5folder c5files)
        (find_dashboard c5folder c5files)
        (generate_visualization_data c5folder
          (find_visualizations c5folder c5files)
          (defaultProjectInfo c5name)))) hviz
      rw [finalSub_ph, hlook] at h1
      exact h1
    have hgvh : generate_visualizations_html c5folder
        (find_visualizations c5folder c5files)
        = vizCardHtml c5folder
            (("water-conservation-analysis/Snow_Pack.png").data)
          ++ vizCardHtml c5folder
            (("water-conservation-analysis/reservoir-levels.png").data) := by
      rw [show find_visualizations c5folder c5files
        = [("water-conservation-analysis/Snow_Pack.png").data,
           ("water-conservation-analysis/reservoir-levels.png").data]
        from by decide, gvh_eq_flatten]
      simp
    have hfin := seg_infix_flattenSegs hmem
    rw [show segStr (Seg.lit (generate_visualizations_html c5folder
        (find_visualizations c5folder c5files)))
      = generate_visualizations_html c5folder
          (find_visualizations c5folder c5files) from rfl, hgvh] at hfin
    exact hfin
  · -- the dashboard sentinel
    have hlook : lookupB (("DASHBOARD_LINK").data)
        (replacementPairs c5folder (defaultProjectInfo c5name)
          (find_visualizations c5folder c5files)
          (find_dashboard c5folder c5files)
          (generate_visualization_data c5folder
            (find_visualizations c5folder c5files)
            (defaultProjectInfo c5name)))
        = some (("#").data) := rfl
    have hmem : Seg.lit (("#").data)
        ∈ segs.map (finalSub (replacementPairs c5folder
          (defaultProjectInfo c5name)
          (find_visualizations c5folder c5files)
          (find_dashboard c5folder c5files)
          (generate_visualization_data c5folder
            (find_visualizations c5folder c5files)
            (defaultProjectInfo c5name)))) := by
      have h1 := List.mem_map_of_mem (finalSub (replacementPairs c5folder
        (defaultProjectInfo c5name)
        (find_visualizations c5folder c5files)
        (find_dashboard c5folder c5files)
        (generate_visualization_data c5folder
          (find_visualizations c5folder c5files)
          (defaultProjectInfo c5name)))) hdash
      rw [finalSub_ph, hlook] at h1
      exact h1
    exact seg_infix_flattenSegs hmem

/-- Witness for C5's amended statement at a concrete small template. -/
theorem C5_end_to_end_witness :
    ∃ html,
      generate_html c5name c5folder (c5fs (flattenSegs c5segs)) = .ok html
      ∧ save_project_page c5name c5folder (c5fs (flattenSegs c5segs))
          = ([(("website/water-conservation-analysis-project.html").data,
               html)],
             .ok (("website/water-conservation-analysis-project.html").data))
      ∧ extract_project_info c5name (c5fs (flattenSegs c5segs))
          = .ok (defaultProjectInfo c5name)
      ∧ find_dashboard c5folder c5files = none
      ∧ generate_visualization_data c5folder
            (find_visualizations c5folder c5files)
            (defaultProjectInfo c5name)
          = [(("snowpack").data,
              ⟨("Snow Pack").data,
               ("../water-conservation-analysis/Snow_Pack.png").data,
               defaultVizDesc⟩),
             (("reservoirlevels").data,
              ⟨("Reservoir-Levels").data,
               ("../water-conservation-analysis/reservoir-levels.png").data,
               reservoirDesc⟩)]
      ∧ isInfixB
          (vizCardHtml c5folder
              (("water-conservation-analysis/Snow_Pack.png").data)
            ++ vizCardHtml c5folder
              (("water-conservation-analysis/reservoir-levels.png").data))
          html = true
      ∧ isInfixB (("#").data) html = true :=
  C5_end_to_end c5segs (by decide) (by decide) (by decide)

/-- Witness for C10 at one concrete image. -/
theorem C10_card_key_in_map_witness :
    isInfixB (onclickFrag (vizKeyCard (splitextStem
          (basenameOf (("p/Snow_Pack.png").data)))))
        (generate_visualizations_html (("p").data)
          [("p/Snow_Pack.png").data]) = true
    ∧ vizKeyCard (splitextStem (basenameOf (("p/Snow_Pack.png").data)))
        = vizKeyData (splitextStem (basenameOf (("p/Snow_Pack.png").data)))
    ∧ vizKeyCard (splitextStem (basenameOf (("p/Snow_Pack.png").data)))
        ∈ (generate_visualization_data (("p").data)
            [("p/Snow_Pack.png").data]
            (defaultProjectInfo (("N").data))).map Prod.fst :=
  C10_card_key_in_map (("p").data) (defaultProjectInfo (("N").data))
    [("p/Snow_Pack.png").data] (("p/Snow_Pack.png").data)
    (List.mem_cons_self _ _)

end PG
